import Mathlib

/-!
# adhan_prayer platform plugin: shallow embedding and verification

Embedding of `linux/adhan_prayer_plugin.cc` and
`windows/adhan_prayer_plugin_c_api.cpp`.

* C character buffers are `List Char`; the end of the list stands for the
  terminating NUL, and a buffer is read as a C string with `readCStr`.
* GObject pointers are addresses (`gpointer`) into a heap of reference-counted
  objects.
* The host (GLib, the Flutter Linux embedder, the kernel) is explicit state:
  every function that has an effect takes the host state and returns the next
  one.  The embedder part covers what registration reaches: the table of
  message handlers of the messenger, in which a new channel replaces the
  channel that listened under the same name, and the closing and disposal of
  the replaced channel.
-/

set_option linter.unusedVariables false

namespace AdhanPrayer

/-! ## C strings -/

/-- Text of the C string that starts a character buffer: the characters before
the first NUL.  The end of the list counts as the terminator. -/
def readCStr (buf : List Char) : List Char :=
  buf.takeWhile (fun c => decide (c.toNat ≠ 0))

/-- The libc function `strcmp` on two character buffers: walks both buffers and
returns the difference of the first pair of code units that differ, or `0`
when both strings end together. -/
def strcmp : List Char → List Char → Int
  | [], [] => 0
  | [], b :: _ => -(b.toNat : Int)
  | a :: _, [] => (a.toNat : Int)
  | a :: as, b :: bs =>
    if a.toNat ≠ b.toNat then (a.toNat : Int) - (b.toNat : Int)
    else if a.toNat = 0 then 0
    else strcmp as bs

/-- The call `g_strdup_printf("Linux %s", arg)`: the literal text followed by
the C string read from `arg`. -/
def g_strdup_printf_Linux (arg : List Char) : List Char :=
  "Linux ".toList ++ readCStr arg

/-! ## Kernel interface -/

/-- Length of each field of `struct utsname` (`_UTSNAME_LENGTH` on Linux). -/
def UTSNAME_LENGTH : Nat := 65

/-- The C type `struct utsname`: six character arrays of `UTSNAME_LENGTH`
bytes each, adjacent in memory in this order. -/
structure utsname where
  sysname : List Char
  nodename : List Char
  release : List Char
  version : List Char
  machine : List Char
  domainname : List Char
deriving DecidableEq

/-- The initialiser `struct utsname uname_data = {}`: every byte is zero. -/
def utsname.zeroed : utsname :=
  let z := List.replicate UTSNAME_LENGTH (Char.ofNat 0)
  { sysname := z, nodename := z, release := z, version := z, machine := z,
    domainname := z }

/-- The memory that starts at the field `version` of a `struct utsname`: the
field itself, then the fields `machine` and `domainname` that follow it.  A
read that finds no NUL inside `version` runs on into them.  The end of the
structure counts as a terminator (reading past it is undefined in C). -/
def utsname.from_version (u : utsname) : List Char :=
  u.version ++ u.machine ++ u.domainname

/-- The system call `uname`, as the program sees it: given the buffer passed
in, the return value and the buffer after the call. -/
abbrev Kernel := utsname → Int × utsname

/-- A failing `uname` call on buffer `buf`: it returns `-1` and stores
nothing. -/
def uname_failed (os : Kernel) (buf : utsname) : Prop :=
  (os buf).1 = -1 ∧ (os buf).2 = buf

/-! ## Flutter values, calls and responses -/

/-- Values carried over the channel (`FlValue`). -/
inductive FlValue where
  | null
  | bool (b : Bool)
  | int (i : Int)
  | string (s : List Char)
deriving DecidableEq

/-- The call `fl_value_new_string(p)`: copies the C string at `p`. -/
def fl_value_new_string (p : List Char) : FlValue :=
  FlValue.string (readCStr p)

/-- The three kinds of `FlMethodResponse`. -/
inductive FlMethodResponse where
  | success (result : FlValue)
  | error (code : List Char) (message : List Char) (details : FlValue)
  | not_implemented
deriving DecidableEq

/-- The call `fl_method_success_response_new(result)`. -/
def fl_method_success_response_new (result : FlValue) : FlMethodResponse :=
  FlMethodResponse.success result

/-- The call `fl_method_not_implemented_response_new()`. -/
def fl_method_not_implemented_response_new : FlMethodResponse :=
  FlMethodResponse.not_implemented

/-- A method call object (`FlMethodCall`): its address, the buffer holding its
name, and its argument payload. -/
structure FlMethodCall where
  addr : Nat
  name : List Char
  args : FlValue
deriving DecidableEq

/-- The accessor `fl_method_call_get_name`. -/
def fl_method_call_get_name (method_call : FlMethodCall) : List Char :=
  method_call.name

/-! ## Host state: GObject heap, method channels, message handlers, responses -/

/-- An object address.  An object lives at the index of the heap that its
address names. -/
abbrev gpointer := Nat

/-- The GObject classes that occur in the program. -/
inductive GType where
  | adhan_prayer_plugin
  | fl_standard_method_codec
  | fl_method_channel
  | fl_binary_messenger
deriving DecidableEq

/-- A heap cell: the class of the object and its reference count.  An object
whose count has reached `0` has been finalised. -/
structure GObject where
  type : GType
  ref_count : Nat
deriving DecidableEq

/-- The functions the program passes as `FlMethodChannelMethodCallHandler`. -/
inductive FlMethodChannelMethodCallHandler where
  | method_call_cb
deriving DecidableEq

/-- The functions the program passes as `GDestroyNotify`. -/
inductive GDestroyNotify where
  | g_object_unref
deriving DecidableEq

/-- The fields of a `FlMethodChannel` object. -/
structure FlMethodChannel where
  self : gpointer
  messenger : gpointer
  channel_closed : Bool
  name : List Char
  codec : gpointer
  method_call_handler : Option FlMethodChannelMethodCallHandler
  method_call_handler_data : gpointer
  method_call_handler_destroy_notify : Option GDestroyNotify
deriving DecidableEq

/-- An entry of the table of message handlers of a messenger: the messenger,
the channel name that is the key, and the user data of the handler, which is
the channel object that listens under that name.  The entry holds a
reference to that object.  Its handler is the `message_cb` of the channel and
its destroy-notify is `channel_closed_cb`. -/
structure PlatformMessageHandler where
  messenger : gpointer
  channel : List Char
  message_handler_data : gpointer
deriving DecidableEq

/-- The registrar handle (`FlPluginRegistrar`): it gives access to the
messenger of the engine. -/
structure FlPluginRegistrar where
  messenger : gpointer
deriving DecidableEq

/-- State of the host process that the plugin acts on. -/
structure Host where
  /-- The reference-counted objects, by address. -/
  heap : List GObject
  /-- The fields of the method channel objects, in creation order. -/
  channels : List FlMethodChannel
  /-- The tables of message handlers of the messengers. -/
  handlers : List PlatformMessageHandler
  /-- The invocations of `fl_method_call_respond`, oldest first. -/
  responses : List (FlMethodCall × FlMethodResponse)
deriving DecidableEq

/-- Reference count of the object at `p`; `0` when there is no live object. -/
def Host.ref_count (h : Host) (p : gpointer) : Nat :=
  match h.heap[p]? with
  | some o => o.ref_count
  | none => 0

/-- Whether `p` is the address of a live object. -/
def Host.live (h : Host) (p : gpointer) : Prop :=
  0 < h.ref_count p

instance (h : Host) (p : gpointer) : Decidable (h.live p) :=
  inferInstanceAs (Decidable (0 < h.ref_count p))

/-- The channel object at address `p`, when there is one. -/
def Host.channel (h : Host) (p : gpointer) : Option FlMethodChannel :=
  h.channels.find? (fun c => c.self == p)

/-- The entry of the handler table of `messenger` under the key `name`. -/
def Host.handler (h : Host) (messenger : gpointer) (name : List Char) :
    Option PlatformMessageHandler :=
  h.handlers.find? (fun e => e.messenger == messenger && e.channel == name)

/-- Number of responses delivered so far on `method_call`. -/
def Host.respond_count (h : Host) (method_call : FlMethodCall) : Nat :=
  (h.responses.filter (fun e => e.1 == method_call)).length

/-- Assignment to the fields of the channel object at address `p`. -/
def Host.update_channel (h : Host) (p : gpointer) (f : FlMethodChannel → FlMethodChannel) :
    Host :=
  { h with channels := h.channels.map (fun d => if d.self == p then f d else d) }

/-- The heap in which the reference count of the object at `p` is one higher. -/
def heap_add (heap : List GObject) (p : gpointer) : List GObject :=
  match heap[p]? with
  | some o => heap.set p { o with ref_count := o.ref_count + 1 }
  | none => heap

/-- The heap in which the reference count of the object at `p` is one lower. -/
def heap_drop (heap : List GObject) (p : gpointer) : List GObject :=
  match heap[p]? with
  | some o => heap.set p { o with ref_count := o.ref_count - 1 }
  | none => heap

/-- The reference count of the object at `p` goes up by one. -/
def Host.add_ref (h : Host) (p : gpointer) : Host :=
  { h with heap := heap_add h.heap p }

/-- The reference count of the object at `p` goes down by one. -/
def Host.drop_ref (h : Host) (p : gpointer) : Host :=
  { h with heap := heap_drop h.heap p }

/-- The call `g_object_new(type, nullptr)`: a fresh object with reference
count 1, at the next free address.  The instance initialiser of the plugin
class, `adhan_prayer_plugin_init`, has an empty body. -/
def g_object_new (type : GType) (h : Host) : gpointer × Host :=
  (h.heap.length, { h with heap := h.heap ++ [{ type := type, ref_count := 1 }] })

/-- The call `g_object_ref(p)`: one more reference.  `none` when `p` is not a
live object (use after free). -/
def g_object_ref (p : gpointer) (h : Host) : Option Host :=
  match h.heap[p]? with
  | some o => if o.ref_count = 0 then none else some (h.add_ref p)
  | none => none

/-- Invocation of a `GDestroyNotify` function pointer on `data`, where `unref`
is the function `g_object_unref`. -/
def GDestroyNotify.call (f : GDestroyNotify) (unref : gpointer → Host → Option Host)
    (data : gpointer) (h : Host) : Option Host :=
  match f with
  | GDestroyNotify.g_object_unref => unref data h

/-- The dispose handler of the base class `GObject`, to which
`G_OBJECT_CLASS(adhan_prayer_plugin_parent_class)->dispose` resolves.  It
releases nothing that this state records. -/
def g_object_real_dispose (object : gpointer) (h : Host) : Host := h

/-- The function `adhan_prayer_plugin_dispose`: it only chains to the dispose
handler of the parent class. -/
def adhan_prayer_plugin_dispose (object : gpointer) (h : Host) : Host :=
  g_object_real_dispose object h

/-- The fields of a channel whose method call handler has been cleared. -/
def FlMethodChannel.cleared (c : FlMethodChannel) : FlMethodChannel :=
  { c with method_call_handler := none, method_call_handler_data := 0,
           method_call_handler_destroy_notify := none }

/-- The dispose handler of the channel class, `fl_method_channel_dispose`,
where `unref` is the function `g_object_unref`: the channel releases its
messenger and its codec, runs the destroy-notify of its method call handler
when one is still set, and clears the handler.  It does not touch the handler
table: the table holds a reference to a channel that listens, so a channel
is disposed only after it has been closed. -/
def fl_method_channel_dispose (unref : gpointer → Host → Option Host) (object : gpointer)
    (h : Host) : Option Host :=
  match h.channel object with
  | none => some h
  | some c => do
    let h ← unref c.messenger h
    let h ← unref c.codec h
    let h ← match c.method_call_handler_destroy_notify with
      | some f => f.call unref c.method_call_handler_data h
      | none => some h
    pure (g_object_real_dispose object (h.update_channel object FlMethodChannel.cleared))

/-- The dispose handler of each class, where `unref` is the function
`g_object_unref`.  For the plugin class it is the one that
`adhan_prayer_plugin_class_init` installs.  The codec holds nothing that this
state records.  The messenger belongs to the engine, which keeps it alive;
what its disposal would release is not followed. -/
def GType.dispose (unref : gpointer → Host → Option Host) :
    GType → gpointer → Host → Option Host
  | GType.adhan_prayer_plugin => fun p h => some (adhan_prayer_plugin_dispose p h)
  | GType.fl_standard_method_codec => fun p h => some (g_object_real_dispose p h)
  | GType.fl_method_channel => fun p h => fl_method_channel_dispose unref p h
  | GType.fl_binary_messenger => fun p h => some (g_object_real_dispose p h)

/-- The call `g_object_unref(p)` with a bound on the depth of nested disposals:
one reference fewer; when the last reference is dropped the dispose handler
of the class runs first, which may release further objects, and the object is
finalised (count `0`).  `none` when `p` is not a live object, or when the
bound is exhausted. -/
def g_object_unref_fuel : Nat → gpointer → Host → Option Host
  | 0, _, _ => none
  | fuel + 1, p, h =>
    match h.heap[p]? with
    | some o =>
      if o.ref_count = 0 then none
      else if o.ref_count = 1 then do
        let h ← o.type.dispose (g_object_unref_fuel fuel) p h
        pure (h.drop_ref p)
      else some (h.drop_ref p)
    | none => none

/-- The call `g_object_unref(p)`.  Each nested disposal finalises another
object, so the number of objects bounds the depth. -/
def g_object_unref (p : gpointer) (h : Host) : Option Host :=
  g_object_unref_fuel (h.heap.length + 1) p h

/-- The call `fl_standard_method_codec_new()`. -/
def fl_standard_method_codec_new (h : Host) : gpointer × Host :=
  g_object_new GType.fl_standard_method_codec h

/-- The accessor `fl_plugin_registrar_get_messenger`. -/
def fl_plugin_registrar_get_messenger (registrar : FlPluginRegistrar) : gpointer :=
  registrar.messenger

/-- The function `channel_closed_cb` of the channel class, the destroy-notify of
the entries of the handler table: it runs when the entry of the channel
`user_data` leaves the table.  The channel is marked closed, the
destroy-notify of its method call handler runs on the user data of that
handler, the handler is cleared, and the reference that the table held is
released. -/
def channel_closed_cb (user_data : gpointer) (h : Host) : Option Host :=
  match h.channel user_data with
  | none => none
  | some c => do
    let h := h.update_channel user_data (fun d => { d with channel_closed := true })
    let h ← match c.method_call_handler_destroy_notify with
      | some f => f.call g_object_unref c.method_call_handler_data h
      | none => some h
    let h := h.update_channel user_data FlMethodChannel.cleared
    g_object_unref user_data h

/-- The call `fl_binary_messenger_set_message_handler_on_channel(messenger,
channel, message_cb, user_data, channel_closed_cb)`: the entry for `channel`
in the table of the messenger is replaced (`g_hash_table_replace`), and the
destroy-notify of the entry that was there before runs on its user data. -/
def fl_binary_messenger_set_message_handler_on_channel (messenger : gpointer)
    (channel : List Char) (user_data : gpointer) (h : Host) : Option Host :=
  let old := h.handler messenger channel
  let h := { h with handlers :=
    h.handlers.filter (fun e => !(e.messenger == messenger && e.channel == channel)) ++
      [{ messenger := messenger, channel := channel, message_handler_data := user_data }] }
  match old with
  | some e => channel_closed_cb e.message_handler_data h
  | none => some h

/-- The call `fl_method_channel_new(messenger, name, codec)`: a new channel
object without a method call handler.  The channel keeps a reference to the
messenger and to the codec, and registers itself in the handler table of the
messenger under its name, with a reference to itself as user data.  A channel
that listened under the same name on that messenger is thereby closed. -/
def fl_method_channel_new (messenger : gpointer) (name : List Char) (codec : gpointer)
    (h : Host) : Option (gpointer × Host) := do
  let (self, h) := g_object_new GType.fl_method_channel h
  let h ← g_object_ref messenger h
  let h ← g_object_ref codec h
  let h := { h with channels := h.channels ++
    [{ self := self, messenger := messenger, channel_closed := false,
       name := readCStr name, codec := codec,
       method_call_handler := none, method_call_handler_data := 0,
       method_call_handler_destroy_notify := none }] }
  let h ← g_object_ref self h
  let h ← fl_binary_messenger_set_message_handler_on_channel messenger (readCStr name) self h
  pure (self, h)

/-- The call `fl_method_channel_set_method_call_handler(channel, handler,
user_data, destroy_notify)`: the destroy-notify of the handler being replaced
runs on its user data, then the new handler is stored.  On a closed channel
no handler is stored and `destroy_notify` runs on `user_data` at once.  When
`channel` is not a channel object the call returns without effect
(`g_return_if_fail`). -/
def fl_method_channel_set_method_call_handler (channel : gpointer)
    (handler : Option FlMethodChannelMethodCallHandler) (user_data : gpointer)
    (destroy_notify : Option GDestroyNotify) (h : Host) : Option Host :=
  match h.channel channel with
  | none => some h
  | some c =>
    if c.channel_closed then
      match destroy_notify with
      | some f => f.call g_object_unref user_data h
      | none => some h
    else do
      let h ← match c.method_call_handler_destroy_notify with
        | some f => f.call g_object_unref c.method_call_handler_data h
        | none => some h
      pure (h.update_channel channel (fun d =>
        { d with method_call_handler := handler, method_call_handler_data := user_data,
                 method_call_handler_destroy_notify := destroy_notify }))

/-- The call `fl_method_call_respond(method_call, response, nullptr)`: the
response is delivered to the host for `method_call`. -/
def fl_method_call_respond (method_call : FlMethodCall) (response : FlMethodResponse)
    (h : Host) : Host :=
  { h with responses := h.responses ++ [(method_call, response)] }

/-! ## The Linux plugin (`linux/adhan_prayer_plugin.cc`) -/

/-- The cast macro `ADHAN_PRAYER_PLUGIN(obj)`: the same address, seen as a
plugin. -/
def ADHAN_PRAYER_PLUGIN (obj : gpointer) : gpointer := obj

/-- The cast macro `FL_METHOD_CODEC(obj)`. -/
def FL_METHOD_CODEC (obj : gpointer) : gpointer := obj

/-- The cast macro `FL_METHOD_RESPONSE(obj)`. -/
def FL_METHOD_RESPONSE (obj : FlMethodResponse) : FlMethodResponse := obj

/-- The function `get_platform_version`: the buffer is zero-initialised, `uname`
is called on it and its return value is dropped, and the C string that
starts at the version field is formatted after the text `Linux `. -/
def get_platform_version (os : Kernel) : FlMethodResponse :=
  let uname_data := utsname.zeroed
  let uname_data := (os uname_data).2
  let version := g_strdup_printf_Linux uname_data.from_version
  let result := fl_value_new_string version
  FL_METHOD_RESPONSE (fl_method_success_response_new result)

/-- The function `adhan_prayer_plugin_handle_method_call`. -/
def adhan_prayer_plugin_handle_method_call (os : Kernel) (self : gpointer)
    (method_call : FlMethodCall) (h : Host) : Host :=
  let method := fl_method_call_get_name method_call
  let response :=
    if strcmp method "getPlatformVersion".toList = 0 then
      get_platform_version os
    else
      FL_METHOD_RESPONSE fl_method_not_implemented_response_new
  fl_method_call_respond method_call response h

/-- The function `method_call_cb`, the handler installed on the channel. -/
def method_call_cb (os : Kernel) (channel : gpointer) (method_call : FlMethodCall)
    (user_data : gpointer) (h : Host) : Host :=
  let plugin := ADHAN_PRAYER_PLUGIN user_data
  adhan_prayer_plugin_handle_method_call os plugin method_call h

/-- Invocation of a `FlMethodChannelMethodCallHandler` function pointer. -/
def FlMethodChannelMethodCallHandler.call (f : FlMethodChannelMethodCallHandler)
    (os : Kernel) (channel : gpointer) (method_call : FlMethodCall) (user_data : gpointer)
    (h : Host) : Host :=
  match f with
  | FlMethodChannelMethodCallHandler.method_call_cb =>
    AdhanPrayer.method_call_cb os channel method_call user_data h

/-- Delivery of an incoming method call on the channel at address `channel`:
the installed handler runs on the stored user data; without a handler (or
without such a channel) nothing happens. -/
def fl_method_channel_deliver (os : Kernel) (channel : gpointer) (method_call : FlMethodCall)
    (h : Host) : Host :=
  match h.channel channel with
  | none => h
  | some c =>
    match c.method_call_handler with
    | none => h
    | some f => f.call os channel method_call c.method_call_handler_data h

/-- The function `adhan_prayer_plugin_register_with_registrar`.  The two
`g_autoptr` variables are released at the end of the scope, in reverse order
of declaration.  `none` stands for a crash (an operation on an object that is
not live). -/
def adhan_prayer_plugin_register_with_registrar (registrar : FlPluginRegistrar)
    (h : Host) : Option Host := do
  let (obj, h) := g_object_new GType.adhan_prayer_plugin h
  let plugin := ADHAN_PRAYER_PLUGIN obj
  let (codec, h) := fl_standard_method_codec_new h
  let (channel, h) ← fl_method_channel_new (fl_plugin_registrar_get_messenger registrar)
    "adhan_prayer".toList (FL_METHOD_CODEC codec) h
  let h ← g_object_ref plugin h
  let h ← fl_method_channel_set_method_call_handler channel
    (some FlMethodChannelMethodCallHandler.method_call_cb) plugin
    (some GDestroyNotify.g_object_unref) h
  let h ← g_object_unref plugin h
  let h ← g_object_unref channel h
  let h ← g_object_unref codec h
  pure h

/-- Delivery of a sequence of incoming method calls, one after the other. -/
def fl_method_channel_deliver_all (os : Kernel) (channel : gpointer) :
    List FlMethodCall → Host → Host
  | [], h => h
  | method_call :: rest, h =>
    fl_method_channel_deliver_all os channel rest
      (fl_method_channel_deliver os channel method_call h)

/-- Whether `p` is the address of a live object of class `t`. -/
def Host.is_a (h : Host) (p : gpointer) (t : GType) : Bool :=
  match h.heap[p]? with
  | some o => o.type == t && decide (0 < o.ref_count)
  | none => false

/-- Whether an entry of the handler table is in order: its user data is an
open channel object that listens on the messenger and under the name of the
entry; the channel, its messenger and its codec are live objects of their
classes; and when the method call handler of the channel has a
destroy-notify, the user data of that handler is a live plugin object. -/
def Host.entry_ok (h : Host) (e : PlatformMessageHandler) : Bool :=
  match h.channel e.message_handler_data with
  | none => false
  | some c =>
    c.messenger == e.messenger && c.name == e.channel && !c.channel_closed &&
    h.is_a c.self GType.fl_method_channel &&
    h.is_a c.messenger GType.fl_binary_messenger &&
    h.is_a c.codec GType.fl_standard_method_codec &&
    (match c.method_call_handler_destroy_notify with
     | some _ => h.is_a c.method_call_handler_data GType.adhan_prayer_plugin
     | none => true)

/-- Well-formed host state: every channel object lies inside the heap, and
every entry of the handler table is in order. -/
def Host.wf (h : Host) : Prop :=
  (∀ c ∈ h.channels, c.self < h.heap.length) ∧
  (∀ e ∈ h.handlers, h.entry_ok e = true)

instance (h : Host) : Decidable h.wf :=
  inferInstanceAs (Decidable ((∀ c ∈ h.channels, c.self < h.heap.length) ∧
    (∀ e ∈ h.handlers, h.entry_ok e = true)))

/-- What registration on the messenger `m` relies on: every channel object lies
inside the heap, the messenger is live, and the channel that listens under
the name `adhan_prayer` on `m`, when there is one, is a live channel object
with a live codec and, when its handler has a destroy-notify, a live plugin
as handler data, none of which is the messenger itself. -/
def Host.ready (h : Host) (m : gpointer) : Prop :=
  (∀ c ∈ h.channels, c.self < h.heap.length) ∧
  h.live m ∧
  ∀ e, h.handler m "adhan_prayer".toList = some e →
    ∃ c, h.channel e.message_handler_data = some c ∧ c.messenger = m ∧
      h.is_a c.self GType.fl_method_channel = true ∧
      h.is_a c.codec GType.fl_standard_method_codec = true ∧
      m ≠ c.self ∧ m ≠ c.codec ∧
      (c.method_call_handler_destroy_notify ≠ none →
        h.is_a c.method_call_handler_data GType.adhan_prayer_plugin = true ∧
        m ≠ c.method_call_handler_data)

/-- The fields of a channel after `channel_closed_cb` has run on it. -/
def FlMethodChannel.closed (c : FlMethodChannel) : FlMethodChannel :=
  { c with channel_closed := true, method_call_handler := none,
           method_call_handler_data := 0, method_call_handler_destroy_notify := none }

/-- The handler installed on the channel at address `channel` works: a call
named `getPlatformVersion` delivered on the channel is answered with Success
carrying a string, a call with any other name with NotImplemented. -/
def Host.handler_works (h : Host) (channel : gpointer) : Prop :=
  (∀ (os : Kernel) (method_call : FlMethodCall),
    readCStr (fl_method_call_get_name method_call) = "getPlatformVersion".toList →
    ∃ s : List Char, (fl_method_channel_deliver os channel method_call h).responses =
      h.responses ++ [(method_call, FlMethodResponse.success (FlValue.string s))]) ∧
  (∀ (os : Kernel) (method_call : FlMethodCall),
    readCStr (fl_method_call_get_name method_call) ≠ "getPlatformVersion".toList →
    (fl_method_channel_deliver os channel method_call h).responses =
      h.responses ++ [(method_call, FlMethodResponse.not_implemented)])

/-- The response that the specification of `HandleMethodCall` prescribes: for
the name `getPlatformVersion`, Success carrying the OS family `Linux`, a space
and the version string of the operating system; for every other name,
NotImplemented. -/
def HandleMethodCall_spec (os : Kernel) (method_call : FlMethodCall) : FlMethodResponse :=
  if readCStr method_call.name = "getPlatformVersion".toList then
    FlMethodResponse.success
      (FlValue.string ("Linux ".toList ++ readCStr (os utsname.zeroed).2.from_version))
  else
    FlMethodResponse.not_implemented

/-- The references that `channel_closed_cb` releases on the channel `c`, whose
object has `count` references, in order: the user data of the method call
handler when it has a destroy-notify; the messenger and the codec when the
table held the last reference to the channel, which is then disposed; and
the channel itself. -/
def closed_drops (c : FlMethodChannel) (count : Nat) : List gpointer :=
  (match c.method_call_handler_destroy_notify with
   | some _ => [c.method_call_handler_data]
   | none => []) ++
  (if count = 1 then [c.messenger, c.codec] else []) ++ [c.self]

/-- The channel that listens under the name `adhan_prayer` on the messenger
`m`, when there is one: the channel that a registration on `m` replaces. -/
def Host.replaced (h : Host) (m : gpointer) : Option FlMethodChannel :=
  (h.handler m "adhan_prayer".toList).bind (fun e => h.channel e.message_handler_data)

/-- The references released when the channel that a registration on `m`
replaces is closed. -/
def Host.released (h : Host) (m : gpointer) : List gpointer :=
  match h.replaced m with
  | some c => closed_drops c (h.ref_count c.self)
  | none => []

/-- The channel entries after the channel that a registration on `m` replaces
has been closed. -/
def Host.channels_closed (h : Host) (m : gpointer) : List FlMethodChannel :=
  match h.replaced m with
  | some c => h.channels.map (fun d => if d.self == c.self then d.closed else d)
  | none => h.channels

/-- The handler table after a registration on `m` that created the channel at
address `p`. -/
def Host.handlers_replaced (h : Host) (m : gpointer) (p : gpointer) :
    List PlatformMessageHandler :=
  h.handlers.filter (fun e => !(e.messenger == m && e.channel == "adhan_prayer".toList)) ++
    [{ messenger := m, channel := "adhan_prayer".toList, message_handler_data := p }]

/-- The fields of the channel that a registration on `m` creates in a heap of
`n` objects, with its handler installed. -/
def registered_channel (m : gpointer) (n : Nat) : FlMethodChannel :=
  { self := n + 2, messenger := m, channel_closed := false,
    name := "adhan_prayer".toList, codec := n + 1,
    method_call_handler := some FlMethodChannelMethodCallHandler.method_call_cb,
    method_call_handler_data := n,
    method_call_handler_destroy_notify := some GDestroyNotify.g_object_unref }

/-- The state after a registration on the messenger `m`: the messenger has one
more reference, the references of the replaced channel are released, and the
plugin, the codec and the channel are new objects with one reference each. -/
def Host.registered (h : Host) (m : gpointer) : Host :=
  { heap := (h.released m).foldl heap_drop (heap_add h.heap m) ++
      [⟨GType.adhan_prayer_plugin, 1⟩, ⟨GType.fl_standard_method_codec, 1⟩,
       ⟨GType.fl_method_channel, 1⟩],
    channels := h.channels_closed m ++ [registered_channel m h.heap.length],
    handlers := h.handlers_replaced m (h.heap.length + 2),
    responses := h.responses }

/-! ## The Windows C entry point (`windows/adhan_prayer_plugin_c_api.cpp`) -/

/-- The handle type `FlutterDesktopPluginRegistrarRef`. -/
abbrev FlutterDesktopPluginRegistrarRef := Nat

/-- Address of a `flutter::PluginRegistrarWindows` wrapper object. -/
abbrev PluginRegistrarWindows := Nat

/-- The two functions that the entry point calls and whose bodies lie outside
the translation unit, over a runtime state `σ`:
`PluginRegistrarManager::GetInstance()->GetRegistrar<PluginRegistrarWindows>`
and `AdhanPrayerPlugin::RegisterWithRegistrar`. -/
structure WindowsRuntime (σ : Type) where
  GetRegistrar : FlutterDesktopPluginRegistrarRef → σ → PluginRegistrarWindows × σ
  RegisterWithRegistrar : PluginRegistrarWindows → σ → σ

/-- A call made by the entry point. -/
inductive WindowsCall where
  | GetRegistrar (registrar : FlutterDesktopPluginRegistrarRef)
  | RegisterWithRegistrar (registrar : PluginRegistrarWindows)
deriving DecidableEq

/-- Runtime state together with the record of the calls made, oldest first. -/
structure WindowsState (σ : Type) where
  runtime : σ
  calls : List WindowsCall

/-- A call of `GetRegistrar`, recorded. -/
def WindowsRuntime.callGetRegistrar {σ : Type} (rt : WindowsRuntime σ)
    (registrar : FlutterDesktopPluginRegistrarRef) (s : WindowsState σ) :
    PluginRegistrarWindows × WindowsState σ :=
  let r := rt.GetRegistrar registrar s.runtime
  (r.1, { runtime := r.2, calls := s.calls ++ [WindowsCall.GetRegistrar registrar] })

/-- A call of `AdhanPrayerPlugin::RegisterWithRegistrar`, recorded. -/
def WindowsRuntime.callRegisterWithRegistrar {σ : Type} (rt : WindowsRuntime σ)
    (registrar : PluginRegistrarWindows) (s : WindowsState σ) : WindowsState σ :=
  { runtime := rt.RegisterWithRegistrar registrar s.runtime,
    calls := s.calls ++ [WindowsCall.RegisterWithRegistrar registrar] }

/-- The function `AdhanPrayerPluginCApiRegisterWithRegistrar`: the argument
expression is evaluated first, then the static member function is called. -/
def AdhanPrayerPluginCApiRegisterWithRegistrar {σ : Type} (rt : WindowsRuntime σ)
    (registrar : FlutterDesktopPluginRegistrarRef) (s : WindowsState σ) : WindowsState σ :=
  let (wrapper, s) := rt.callGetRegistrar registrar s
  rt.callRegisterWithRegistrar wrapper s

end AdhanPrayer

namespace AdhanPrayer

/-! ## Facts about C strings -/

theorem readCStr_nil : readCStr [] = [] := rfl

theorem readCStr_cons (a : Char) (as : List Char) :
    readCStr (a :: as) = if a.toNat = 0 then [] else a :: readCStr as := by
  unfold readCStr
  by_cases h : a.toNat = 0 <;> simp [List.takeWhile_cons, h]

theorem char_eq_of_toNat_eq {a b : Char} (h : a.toNat = b.toNat) : a = b := by
  apply Char.ext
  apply UInt32.ext
  exact h

/-- `strcmp` returns `0` exactly when the two buffers hold the same C string. -/
theorem strcmp_eq_zero_iff (a b : List Char) :
    strcmp a b = 0 ↔ readCStr a = readCStr b := by
  induction a generalizing b with
  | nil =>
    cases b with
    | nil => simp [strcmp, readCStr_nil]
    | cons y ys =>
      by_cases hy : y.toNat = 0 <;> simp [strcmp, readCStr_nil, readCStr_cons, hy]
  | cons x xs ih =>
    cases b with
    | nil =>
      by_cases hx : x.toNat = 0 <;> simp [strcmp, readCStr_nil, readCStr_cons, hx]
    | cons y ys =>
      by_cases hxy : x.toNat = y.toNat
      · have hc : x = y := char_eq_of_toNat_eq hxy
        subst hc
        by_cases hx : x.toNat = 0
        · simp [strcmp, readCStr_cons, hx]
        · simp [strcmp, readCStr_cons, hx, ih]
      · have hne : x ≠ y := fun e => hxy (by rw [e])
        have hd : (x.toNat : Int) - (y.toNat : Int) ≠ 0 := by omega
        by_cases hx : x.toNat = 0 <;> by_cases hy : y.toNat = 0
        · omega
        · have hy0 : ¬ (0 = y.toNat) := fun e => hy e.symm
          simp [strcmp, readCStr_cons, hx, hy, hy0]
        · simp [strcmp, readCStr_cons, hx, hy]
        · simp [strcmp, readCStr_cons, hx, hy, hxy, hd, hne]

/-- A buffer without a NUL is read whole. -/
theorem readCStr_of_nul_free (v : List Char) (hv : ∀ c ∈ v, c.toNat ≠ 0) :
    readCStr v = v := by
  induction v with
  | nil => rfl
  | cons x xs ih =>
    have hx : x.toNat ≠ 0 := hv x (List.mem_cons_self x xs)
    rw [readCStr_cons, if_neg hx, ih (fun c hc => hv c (List.mem_cons_of_mem x hc))]

/-- Reading stops at the first NUL: what follows it is not read. -/
theorem readCStr_append_nul (v rest : List Char) (hv : ∀ c ∈ v, c.toNat ≠ 0) :
    readCStr (v ++ Char.ofNat 0 :: rest) = v := by
  induction v with
  | nil => rfl
  | cons x xs ih =>
    have hx : x.toNat ≠ 0 := hv x (List.mem_cons_self x xs)
    rw [List.cons_append, readCStr_cons, if_neg hx,
      ih (fun c hc => hv c (List.mem_cons_of_mem x hc))]

theorem readCStr_nul_free (buf : List Char) : ∀ c ∈ readCStr buf, c.toNat ≠ 0 := by
  intro c hc
  have h := List.mem_takeWhile_imp hc
  simpa using h

theorem readCStr_idem (buf : List Char) : readCStr (readCStr buf) = readCStr buf :=
  readCStr_of_nul_free _ (readCStr_nul_free buf)

/-- The formatted text is a C string: copying it keeps all of it. -/
theorem readCStr_g_strdup_printf_Linux (arg : List Char) :
    readCStr (g_strdup_printf_Linux arg) = "Linux ".toList ++ readCStr arg := by
  apply readCStr_of_nul_free
  intro c hc
  unfold g_strdup_printf_Linux at hc
  rcases List.mem_append.mp hc with h | h
  · have : ∀ d ∈ "Linux ".toList, d.toNat ≠ 0 := by decide
    exact this c h
  · exact readCStr_nul_free arg c h

theorem readCStr_zeroed_version : readCStr utsname.zeroed.from_version = [] := by decide

/-- A read that meets a NUL inside the first buffer does not reach the second. -/
theorem readCStr_append_of_nul (a b : List Char) (ha : ∃ c ∈ a, c.toNat = 0) :
    readCStr (a ++ b) = readCStr a := by
  induction a with
  | nil =>
    obtain ⟨c, hc, _⟩ := ha
    cases hc
  | cons x xs ih =>
    by_cases hx : x.toNat = 0
    · rw [List.cons_append, readCStr_cons, readCStr_cons, if_pos hx, if_pos hx]
    · rw [List.cons_append, readCStr_cons, readCStr_cons, if_neg hx, if_neg hx]
      obtain ⟨c, hc, hc0⟩ := ha
      rcases List.mem_cons.mp hc with e | hm
      · rw [e] at hc0; exact absurd hc0 hx
      · rw [ih ⟨c, hm, hc0⟩]

/-- When the version field holds a NUL, the C string that starts at the field
lies inside it. -/
theorem readCStr_from_version (u : utsname) (hu : ∃ c ∈ u.version, c.toNat = 0) :
    readCStr u.from_version = readCStr u.version := by
  unfold utsname.from_version
  rw [List.append_assoc, readCStr_append_of_nul _ _ hu]

/-- What `get_platform_version` returns, for any behaviour of `uname`. -/
theorem get_platform_version_eq (os : Kernel) :
    get_platform_version os = FlMethodResponse.success
      (FlValue.string ("Linux ".toList ++ readCStr (os utsname.zeroed).2.from_version)) := by
  simp only [get_platform_version, FL_METHOD_RESPONSE, fl_method_success_response_new,
    fl_value_new_string, readCStr_g_strdup_printf_Linux]

/-- The test of the handler, in terms of the name of the call. -/
theorem strcmp_getPlatformVersion (name : List Char) :
    strcmp name "getPlatformVersion".toList = 0 ↔
      readCStr name = "getPlatformVersion".toList := by
  rw [strcmp_eq_zero_iff]
  have : readCStr "getPlatformVersion".toList = "getPlatformVersion".toList := by decide
  rw [this]

/-! ## Facts about the heap -/

@[simp] theorem heap_add_length (H : List GObject) (p : gpointer) :
    (heap_add H p).length = H.length := by
  unfold heap_add; split <;> simp

@[simp] theorem heap_drop_length (H : List GObject) (p : gpointer) :
    (heap_drop H p).length = H.length := by
  unfold heap_drop; split <;> simp

theorem heap_add_get_ne (H : List GObject) (p q : gpointer) (hne : q ≠ p) :
    (heap_add H p)[q]? = H[q]? := by
  unfold heap_add
  split
  · exact List.getElem?_set_ne (fun e => hne e.symm)
  · rfl

theorem heap_drop_get_ne (H : List GObject) (p q : gpointer) (hne : q ≠ p) :
    (heap_drop H p)[q]? = H[q]? := by
  unfold heap_drop
  split
  · exact List.getElem?_set_ne (fun e => hne e.symm)
  · rfl

theorem heap_add_get_self (H : List GObject) (p : gpointer) (o : GObject)
    (hp : H[p]? = some o) :
    (heap_add H p)[p]? = some { o with ref_count := o.ref_count + 1 } := by
  have hlt : p < H.length := (List.getElem?_eq_some.mp hp).1
  unfold heap_add
  rw [hp]
  exact List.getElem?_set_self hlt

theorem heap_drop_get_self (H : List GObject) (p : gpointer) (o : GObject)
    (hp : H[p]? = some o) :
    (heap_drop H p)[p]? = some { o with ref_count := o.ref_count - 1 } := by
  have hlt : p < H.length := (List.getElem?_eq_some.mp hp).1
  unfold heap_drop
  rw [hp]
  exact List.getElem?_set_self hlt

theorem heap_add_append_left (H T : List GObject) (p : gpointer) (hp : p < H.length) :
    heap_add (H ++ T) p = heap_add H p ++ T := by
  unfold heap_add
  rw [List.getElem?_append_left hp]
  cases H[p]? with
  | none => rfl
  | some o => exact List.set_append_left _ _ hp

theorem heap_drop_append_left (H T : List GObject) (p : gpointer) (hp : p < H.length) :
    heap_drop (H ++ T) p = heap_drop H p ++ T := by
  unfold heap_drop
  rw [List.getElem?_append_left hp]
  cases H[p]? with
  | none => rfl
  | some o => exact List.set_append_left _ _ hp

theorem heap_add_append_right (H T : List GObject) (n k : Nat) (hn : H.length = n) :
    heap_add (H ++ T) (n + k) = H ++ heap_add T k := by
  subst hn
  unfold heap_add
  rw [List.getElem?_append_right (Nat.le_add_right _ _), Nat.add_sub_cancel_left]
  cases T[k]? with
  | none => rfl
  | some o =>
    simp only []
    rw [List.set_append_right _ _ (Nat.le_add_right _ _), Nat.add_sub_cancel_left]

theorem heap_drop_append_right (H T : List GObject) (n k : Nat) (hn : H.length = n) :
    heap_drop (H ++ T) (n + k) = H ++ heap_drop T k := by
  subst hn
  unfold heap_drop
  rw [List.getElem?_append_right (Nat.le_add_right _ _), Nat.add_sub_cancel_left]
  cases T[k]? with
  | none => rfl
  | some o =>
    simp only []
    rw [List.set_append_right _ _ (Nat.le_add_right _ _), Nat.add_sub_cancel_left]

theorem getElem?_tail (H T : List GObject) (n k : Nat) (hn : H.length = n) :
    (H ++ T)[n + k]? = T[k]? := by
  subst hn
  rw [List.getElem?_append_right (Nat.le_add_right _ _), Nat.add_sub_cancel_left]

/-! ## Facts about `g_object_ref` and `g_object_unref` -/

theorem g_object_ref_eq (p : gpointer) (h : Host) (o : GObject)
    (hp : h.heap[p]? = some o) (ho : o.ref_count ≠ 0) :
    g_object_ref p h = some (h.add_ref p) := by
  simp [g_object_ref, hp, ho]

/-- Dropping a reference that is not the last one of a channel only lowers the
count: the dispose handlers of the other classes change nothing. -/
theorem g_object_unref_fuel_simple (fuel : Nat) (p : gpointer) (h : Host) (o : GObject)
    (hp : h.heap[p]? = some o) (ho : o.ref_count ≠ 0)
    (hs : o.ref_count ≠ 1 ∨ o.type ≠ GType.fl_method_channel) :
    g_object_unref_fuel (fuel + 1) p h = some (h.drop_ref p) := by
  simp only [g_object_unref_fuel, hp, ho, if_false]
  by_cases h1 : o.ref_count = 1
  · rcases hs with hs | hs
    · exact absurd h1 hs
    · simp only [h1, if_true]
      cases ht : o.type with
      | fl_method_channel => exact absurd ht hs
      | adhan_prayer_plugin => rfl
      | fl_standard_method_codec => rfl
      | fl_binary_messenger => rfl
  · simp only [h1, if_false]

theorem g_object_unref_simple (p : gpointer) (h : Host) (o : GObject)
    (hp : h.heap[p]? = some o) (ho : o.ref_count ≠ 0)
    (hs : o.ref_count ≠ 1 ∨ o.type ≠ GType.fl_method_channel) :
    g_object_unref p h = some (h.drop_ref p) :=
  g_object_unref_fuel_simple _ p h o hp ho hs

theorem g_object_ref_tail (H T : List GObject) (chs : List FlMethodChannel)
    (hs : List PlatformMessageHandler) (rs : List (FlMethodCall × FlMethodResponse))
    (n k : Nat) (hn : H.length = n) :
    g_object_ref (n + k) { heap := H ++ T, channels := chs, handlers := hs, responses := rs } =
      match T[k]? with
      | some o =>
        if o.ref_count = 0 then none
        else some { heap := H ++ T.set k { o with ref_count := o.ref_count + 1 },
                    channels := chs, handlers := hs, responses := rs }
      | none => none := by
  simp only [g_object_ref, getElem?_tail H T n k hn]
  cases hT : T[k]? with
  | none => rfl
  | some o =>
    simp only [Host.add_ref]
    rw [heap_add_append_right H T n k hn]
    simp only [heap_add, hT]

theorem g_object_unref_tail (H T : List GObject) (chs : List FlMethodChannel)
    (hs : List PlatformMessageHandler) (rs : List (FlMethodCall × FlMethodResponse))
    (n k : Nat) (hn : H.length = n) (o : GObject) (hT : T[k]? = some o)
    (hc : o.ref_count ≠ 0 ∧ (o.ref_count ≠ 1 ∨ o.type ≠ GType.fl_method_channel)) :
    g_object_unref (n + k)
        { heap := H ++ T, channels := chs, handlers := hs, responses := rs } =
      some { heap := H ++ T.set k { o with ref_count := o.ref_count - 1 },
             channels := chs, handlers := hs, responses := rs } := by
  have hp : (H ++ T)[n + k]? = some o := by rw [getElem?_tail H T n k hn, hT]
  rw [g_object_unref_simple (n + k) _ o hp hc.1 hc.2]
  simp only [Host.drop_ref]
  rw [heap_drop_append_right H T n k hn]
  simp only [heap_drop, hT]

/-! ## Facts about the channel table -/

theorem find_fresh (cs : List FlMethodChannel) (n : Nat) (c : FlMethodChannel)
    (hcs : ∀ d ∈ cs, d.self < n) (hc : n ≤ c.self) :
    (cs ++ [c]).find? (fun d => d.self == c.self) = some c := by
  induction cs with
  | nil => simp
  | cons d ds ih =>
    have hd : d.self < n := hcs d (List.mem_cons_self d ds)
    have hne : ¬ d.self = c.self := fun e => absurd (e ▸ hd) (Nat.not_lt.mpr hc)
    simp [List.find?_cons, hne]
    simpa using ih (fun e he => hcs e (List.mem_cons_of_mem d he))

theorem map_fresh (cs : List FlMethodChannel) (n : Nat) (c : FlMethodChannel)
    (f : FlMethodChannel → FlMethodChannel)
    (hcs : ∀ d ∈ cs, d.self < n) (hc : n ≤ c.self) :
    (cs ++ [c]).map (fun d => if d.self == c.self then f d else d) = cs ++ [f c] := by
  induction cs with
  | nil => simp
  | cons d ds ih =>
    have hd : d.self < n := hcs d (List.mem_cons_self d ds)
    have hne : ¬ d.self = c.self := fun e => absurd (e ▸ hd) (Nat.not_lt.mpr hc)
    simp [hne]
    simpa using ih (fun e he => hcs e (List.mem_cons_of_mem d he))

/-- Installing a handler on the newest channel, which is open and has none. -/
theorem set_handler_fresh (H : List GObject) (chs : List FlMethodChannel)
    (hs : List PlatformMessageHandler) (rs : List (FlMethodCall × FlMethodResponse))
    (c : FlMethodChannel) (n : Nat)
    (hcs : ∀ d ∈ chs, d.self < n) (hc : n ≤ c.self)
    (hd : c.method_call_handler_destroy_notify = none) (ho : c.channel_closed = false)
    (handler : Option FlMethodChannelMethodCallHandler) (user_data : gpointer)
    (destroy_notify : Option GDestroyNotify) :
    fl_method_channel_set_method_call_handler c.self handler user_data destroy_notify
        { heap := H, channels := chs ++ [c], handlers := hs, responses := rs } =
      some { heap := H,
             channels := chs ++ [{ c with method_call_handler := handler,
                                          method_call_handler_data := user_data,
                                          method_call_handler_destroy_notify := destroy_notify }],
             handlers := hs, responses := rs } := by
  simp only [fl_method_channel_set_method_call_handler, Host.channel,
    find_fresh chs n c hcs hc, hd, ho, Host.update_channel, map_fresh chs n c _ hcs hc,
    Option.bind_eq_bind, Option.some_bind, Option.pure_def, Bool.false_eq_true, if_false]

theorem heap_drop_get (H : List GObject) (p q : gpointer) :
    (heap_drop H p)[q]? =
      if q = p then H[q]?.map (fun o => { o with ref_count := o.ref_count - 1 })
      else H[q]? := by
  by_cases hq : q = p
  · subst hq
    rw [if_pos rfl]
    cases hp : H[q]? with
    | none => simp only [heap_drop, hp, Option.map_none']
    | some o => rw [heap_drop_get_self H q o hp]; rfl
  · rw [if_neg hq, heap_drop_get_ne H p q hq]

theorem drops_length (ps : List gpointer) (H : List GObject) :
    (ps.foldl heap_drop H).length = H.length := by
  induction ps generalizing H with
  | nil => rfl
  | cons p ps ih => rw [List.foldl_cons, ih, heap_drop_length]

/-- After a sequence of releases every object keeps its class, and its count
is lower by the number of times it was released. -/
theorem drops_get (ps : List gpointer) (H : List GObject) (q : gpointer) :
    (ps.foldl heap_drop H)[q]? =
      H[q]?.map (fun o => { o with ref_count := o.ref_count - ps.count q }) := by
  induction ps generalizing H with
  | nil =>
    simp only [List.foldl_nil, List.count_nil, Nat.sub_zero]
    cases H[q]? with
    | none => rfl
    | some o => rfl
  | cons p ps ih =>
    rw [List.foldl_cons, ih, heap_drop_get]
    by_cases hq : q = p
    · subst hq
      rw [if_pos rfl, List.count_cons_self]
      cases H[q]? with
      | none => rfl
      | some o =>
        simp only [Option.map_some', Nat.sub_sub, Nat.add_comm]
    · rw [if_neg hq, List.count_cons_of_ne hq]

theorem drops_append (ps : List gpointer) (H T : List GObject)
    (hps : ∀ p ∈ ps, p < H.length) :
    ps.foldl heap_drop (H ++ T) = ps.foldl heap_drop H ++ T := by
  induction ps generalizing H with
  | nil => rfl
  | cons p ps ih =>
    rw [List.foldl_cons, List.foldl_cons,
      heap_drop_append_left H T p (hps p (List.mem_cons_self p ps))]
    exact ih _ (fun q hq => by
      rw [heap_drop_length]; exact hps q (List.mem_cons_of_mem p hq))

theorem channel_update_self (h : Host) (p : gpointer) (f : FlMethodChannel → FlMethodChannel)
    (hf : ∀ d, (f d).self = d.self) :
    (h.update_channel p f).channel p = (h.channel p).map f := by
  unfold Host.update_channel Host.channel
  simp only []
  induction h.channels with
  | nil => rfl
  | cons d ds ih =>
    by_cases hd : d.self = p
    · simp [List.find?_cons, hd, hf]
    · have hb : (d.self == p) = false := by simpa using hd
      simp only [List.map_cons, List.find?_cons, hb, Bool.false_eq_true, if_false]
      exact ih

theorem update_channel_twice (h : Host) (p : gpointer)
    (f f' : FlMethodChannel → FlMethodChannel) (hf : ∀ d, (f d).self = d.self) :
    (h.update_channel p f).update_channel p f' = h.update_channel p (fun d => f' (f d)) := by
  unfold Host.update_channel
  simp only [List.map_map]
  congr 1
  apply List.map_congr_left
  intro d _
  by_cases hd : d.self = p
  · simp [hd, hf]
  · simp [hd]

/-- The last reference to a closed channel without a method call handler is
dropped: the channel is disposed, which releases its messenger and its
codec, and is finalised. -/
theorem g_object_unref_channel_last (p : gpointer) (h : Host) (c : FlMethodChannel)
    (om oc : GObject)
    (hp : h.heap[p]? = some ⟨GType.fl_method_channel, 1⟩)
    (hc : h.channel p = some c) (hn : c.method_call_handler_destroy_notify = none)
    (hm : h.heap[c.messenger]? = some om) (hm0 : om.ref_count ≠ 0)
    (hms : om.ref_count ≠ 1 ∨ om.type ≠ GType.fl_method_channel)
    (hcd : (heap_drop h.heap c.messenger)[c.codec]? = some oc) (hc0 : oc.ref_count ≠ 0)
    (hcs : oc.ref_count ≠ 1 ∨ oc.type ≠ GType.fl_method_channel) :
    g_object_unref p h = some
      ((((h.drop_ref c.messenger).drop_ref c.codec).update_channel p
        FlMethodChannel.cleared).drop_ref p) := by
  have hlt : p < h.heap.length := (List.getElem?_eq_some.mp hp).1
  obtain ⟨l, hl⟩ : ∃ l, h.heap.length = l + 1 :=
    ⟨h.heap.length - 1, (Nat.sub_add_cancel (Nat.lt_of_le_of_lt (Nat.zero_le _) hlt)).symm⟩
  unfold g_object_unref
  rw [hl]
  have e1 := g_object_unref_fuel_simple l c.messenger h om hm hm0 hms
  have e2 := g_object_unref_fuel_simple l c.codec (h.drop_ref c.messenger) oc hcd hc0 hcs
  rw [g_object_unref_fuel]
  simp only [hp, GType.dispose, fl_method_channel_dispose, hc, hn, e1, e2,
    Option.bind_eq_bind, Option.some_bind, Option.pure_def, g_object_real_dispose,
    if_true, if_false, Nat.succ_ne_zero, OfNat.ofNat_ne_zero, one_ne_zero]

/-- What `channel_closed_cb` does to a channel whose objects are in order: the
channel entry becomes closed and without handler, and the references listed
by `closed_drops` are released. -/
theorem channel_closed_cb_eq (g : Host) (c0 : gpointer) (c : FlMethodChannel)
    (och oc om : GObject)
    (hc : g.channel c0 = some c)
    (hch : g.heap[c0]? = some och) (hcht : och.type = GType.fl_method_channel)
    (hch0 : och.ref_count ≠ 0)
    (hcodec : g.heap[c.codec]? = some oc) (hct : oc.type = GType.fl_standard_method_codec)
    (hc0 : oc.ref_count ≠ 0)
    (hm : g.heap[c.messenger]? = some om) (hm2 : 2 ≤ om.ref_count)
    (hmc0 : c.messenger ≠ c0) (hmcodec : c.messenger ≠ c.codec)
    (hdata : c.method_call_handler_destroy_notify ≠ none →
      ∃ od, g.heap[c.method_call_handler_data]? = some od ∧
        od.type = GType.adhan_prayer_plugin ∧ od.ref_count ≠ 0 ∧
        c.messenger ≠ c.method_call_handler_data) :
    channel_closed_cb c0 g = some
      { heap := (closed_drops c och.ref_count).foldl heap_drop g.heap,
        channels := g.channels.map (fun d => if d.self == c0 then d.closed else d),
        handlers := g.handlers, responses := g.responses } := by
  have hself : c.self = c0 := by
    have := List.find?_some hc
    simpa using this
  have hcodec_ne : c.codec ≠ c0 := by
    intro e
    rw [e, hch] at hcodec
    have := congrArg GObject.type (Option.some.inj hcodec)
    rw [hcht, hct] at this
    exact absurd this (by decide)
  have hU : (g.update_channel c0 (fun d => { d with channel_closed := true })).update_channel c0
      FlMethodChannel.cleared = g.update_channel c0 FlMethodChannel.closed := by
    rw [update_channel_twice g c0 (fun d => { d with channel_closed := true })
      FlMethodChannel.cleared (fun d => rfl)]
    rfl
  have hGc : (g.update_channel c0 FlMethodChannel.closed).channel c0 = some c.closed := by
    rw [channel_update_self g c0 FlMethodChannel.closed (fun d => rfl), hc]
    rfl
  -- the final release of the channel, from a state whose heap is `H`
  have hfinal : ∀ (H : List GObject),
      H[c0]? = some och → H[c.messenger]? = some om → H[c.codec]? = some oc →
      g_object_unref c0 (Host.mk H
          (g.update_channel c0 FlMethodChannel.closed).channels g.handlers g.responses) = some
        (Host.mk
          (List.foldl heap_drop H
            ((if och.ref_count = 1 then [c.messenger, c.codec] else []) ++ [c0]))
          (g.channels.map (fun d => if d.self == c0 then d.closed else d))
          g.handlers g.responses) := by
    intro H h1 h2 h3
    by_cases hk : och.ref_count = 1
    · have hch' : och = ⟨GType.fl_method_channel, 1⟩ := by
        cases och; simp only [] at hcht hk; rw [hcht, hk]
      rw [if_pos hk]
      have h3' : (heap_drop H c.messenger)[c.codec]? = some oc := by
        rw [heap_drop_get_ne H _ _ (fun e => hmcodec e.symm), h3]
      rw [g_object_unref_channel_last c0 (Host.mk H
          (g.update_channel c0 FlMethodChannel.closed).channels g.handlers g.responses)
        c.closed om oc (by rw [← hch']; exact h1) hGc rfl h2
        (by omega) (Or.inl (by omega)) h3' hc0 (Or.inr (by rw [hct]; decide))]
      simp only [Host.drop_ref, Host.update_channel, List.map_map, List.foldl_cons,
        List.foldl_nil, List.cons_append, List.nil_append]
      congr 2
      apply List.map_congr_left
      intro d _
      by_cases hd : d.self = c0
      · simp [hd, FlMethodChannel.closed, FlMethodChannel.cleared]
      · simp [hd]
    · rw [if_neg hk]
      rw [g_object_unref_simple c0 (Host.mk H
          (g.update_channel c0 FlMethodChannel.closed).channels g.handlers g.responses)
        och h1 hch0 (Or.inl hk)]
      rfl
  unfold channel_closed_cb
  rw [hc]
  simp only [Option.bind_eq_bind]
  cases hn : c.method_call_handler_destroy_notify with
  | none =>
    simp only [Option.some_bind, hU, closed_drops, hn, List.nil_append, hself]
    exact hfinal g.heap hch hm hcodec
  | some f =>
    obtain ⟨od, hd, hdt, hd0, hmd⟩ := hdata (by rw [hn]; exact Option.some_ne_none f)
    have hd_ne_c0 : c.method_call_handler_data ≠ c0 := by
      intro e
      rw [e, hch] at hd
      have := congrArg GObject.type (Option.some.inj hd)
      rw [hcht, hdt] at this
      exact absurd this (by decide)
    have hd_ne_codec : c.method_call_handler_data ≠ c.codec := by
      intro e
      rw [e, hcodec] at hd
      have := congrArg GObject.type (Option.some.inj hd)
      rw [hct, hdt] at this
      exact absurd this (by decide)
    cases f
    have e1 : g_object_unref c.method_call_handler_data
        (g.update_channel c0 (fun d => { d with channel_closed := true })) =
        some ((g.update_channel c0 (fun d => { d with channel_closed := true })).drop_ref
          c.method_call_handler_data) :=
      g_object_unref_simple _ _ od hd hd0 (Or.inr (by rw [hdt]; decide))
    simp only [GDestroyNotify.call, e1, Option.some_bind, closed_drops, hn, hself,
      List.cons_append, List.nil_append, List.foldl_cons]
    have hsw : ((g.update_channel c0 (fun d => { d with channel_closed := true })).drop_ref
        c.method_call_handler_data).update_channel c0 FlMethodChannel.cleared =
        Host.mk (heap_drop g.heap c.method_call_handler_data)
          (g.update_channel c0 FlMethodChannel.closed).channels g.handlers g.responses := by
      rw [← hU]
      rfl
    rw [hsw]
    exact hfinal _ (by rw [heap_drop_get_ne _ _ _ (fun e => hd_ne_c0 e.symm), hch])
      (by rw [heap_drop_get_ne _ _ _ hmd, hm])
      (by rw [heap_drop_get_ne _ _ _ (fun e => hd_ne_codec e.symm), hcodec])

/-! ## Registration, step by step -/

theorem g_object_ref_left (H T : List GObject) (chs : List FlMethodChannel)
    (hs : List PlatformMessageHandler) (rs : List (FlMethodCall × FlMethodResponse))
    (p : gpointer) (o : GObject) (hp : H[p]? = some o) (ho : o.ref_count ≠ 0) :
    g_object_ref p { heap := H ++ T, channels := chs, handlers := hs, responses := rs } =
      some { heap := heap_add H p ++ T, channels := chs, handlers := hs, responses := rs } := by
  have hlt : p < H.length := (List.getElem?_eq_some.mp hp).1
  have hp' : (H ++ T)[p]? = some o := by rw [List.getElem?_append_left hlt, hp]
  rw [g_object_ref_eq p _ o hp' ho]
  simp only [Host.add_ref, heap_add_append_left H T p hlt]

theorem find_append_left (cs : List FlMethodChannel) (d c : FlMethodChannel) (p : gpointer)
    (hc : cs.find? (fun x => x.self == p) = some c) :
    (cs ++ [d]).find? (fun x => x.self == p) = some c := by
  rw [List.find?_append, hc]
  rfl

theorem ref_count_eq (h : Host) (p : gpointer) (o : GObject) (hp : h.heap[p]? = some o) :
    h.ref_count p = o.ref_count := by
  unfold Host.ref_count
  rw [hp]

theorem is_a_lookup (h : Host) (p : gpointer) (t : GType) (hi : h.is_a p t = true) :
    ∃ o, h.heap[p]? = some o ∧ o.type = t ∧ o.ref_count ≠ 0 := by
  unfold Host.is_a at hi
  cases ho : h.heap[p]? with
  | none => rw [ho] at hi; exact Bool.noConfusion hi
  | some o =>
    rw [ho] at hi
    simp only [Bool.and_eq_true, beq_iff_eq, decide_eq_true_eq] at hi
    exact ⟨o, rfl, hi.1, Nat.pos_iff_ne_zero.mp hi.2⟩

theorem live_lookup (h : Host) (p : gpointer) (hl : h.live p) :
    ∃ o : GObject, h.heap[p]? = some o ∧ o.ref_count ≠ 0 := by
  unfold Host.live Host.ref_count at hl
  cases ho : h.heap[p]? with
  | none => rw [ho] at hl; exact absurd hl (Nat.lt_irrefl 0)
  | some o =>
    rw [ho] at hl
    exact ⟨o, rfl, Nat.pos_iff_ne_zero.mp hl⟩

/-- The fields of the channel that registration creates in `h`, before its
handler is installed. -/
theorem fl_method_channel_new_eq (h : Host) (m : gpointer) (hr : h.ready m) :
    fl_method_channel_new m "adhan_prayer".toList (h.heap.length + 1)
        { heap := h.heap ++ [⟨GType.adhan_prayer_plugin, 1⟩, ⟨GType.fl_standard_method_codec, 1⟩],
          channels := h.channels, handlers := h.handlers, responses := h.responses } =
      some (h.heap.length + 2,
        { heap := (h.released m).foldl heap_drop (heap_add h.heap m) ++
            [⟨GType.adhan_prayer_plugin, 1⟩, ⟨GType.fl_standard_method_codec, 2⟩,
             ⟨GType.fl_method_channel, 2⟩],
          channels := h.channels_closed m ++
            [{ self := h.heap.length + 2, messenger := m, channel_closed := false,
               name := "adhan_prayer".toList, codec := h.heap.length + 1,
               method_call_handler := none, method_call_handler_data := 0,
               method_call_handler_destroy_notify := none }],
          handlers := h.handlers_replaced m (h.heap.length + 2),
          responses := h.responses }) := by
  obtain ⟨hw, hlive, hrep⟩ := hr
  obtain ⟨o, hm, ho⟩ := live_lookup h m hlive
  have hmlt : m < h.heap.length := (List.getElem?_eq_some.mp hm).1
  have hlen : (heap_add h.heap m).length = h.heap.length := heap_add_length _ _
  have hname : readCStr "adhan_prayer".toList = "adhan_prayer".toList := by decide
  have r1 := fun T chs hs rs => g_object_ref_tail (heap_add h.heap m) T chs hs rs _ 1 hlen
  have r2 := fun T chs hs rs => g_object_ref_tail (heap_add h.heap m) T chs hs rs _ 2 hlen
  simp only [fl_method_channel_new, g_object_new, List.append_assoc, List.cons_append,
    List.nil_append, List.length_append, List.length_cons, List.length_nil, Nat.zero_add,
    Nat.add_assoc, Nat.reduceAdd, Option.bind_eq_bind, Option.pure_def, hname,
    g_object_ref_left h.heap _ _ _ _ m o hm ho, Option.some_bind, r1, r2,
    List.getElem?_cons_zero, List.getElem?_cons_succ, List.set_cons_zero, List.set_cons_succ,
    if_false, Nat.succ_ne_zero, OfNat.ofNat_ne_zero, one_ne_zero,
    fl_binary_messenger_set_message_handler_on_channel, Host.handler]
  cases he : List.find? (fun e => e.messenger == m && e.channel == "adhan_prayer".toList)
      h.handlers with
  | none =>
    have hrp : h.replaced m = none := by
      simp only [Host.replaced, Host.handler, he, Option.none_bind]
    simp only [Option.some_bind, Host.released, Host.channels_closed, hrp, List.foldl_nil,
      Host.handlers_replaced]
  | some e =>
    obtain ⟨c, hc, hcm, hich, hicodec, hms, hmc, hdat⟩ := hrep e he
    have hself : c.self = e.message_handler_data := by
      have := List.find?_some hc
      simpa using this
    have hrp : h.replaced m = some c := by
      simp only [Host.replaced, Host.handler, he, Option.some_bind, hc]
    obtain ⟨och, hch, hcht, hch0⟩ := is_a_lookup h _ _ hich
    obtain ⟨oc, hcodec, hct, hc0⟩ := is_a_lookup h _ _ hicodec
    have hchlt : c.self < h.heap.length := (List.getElem?_eq_some.mp hch).1
    have hcodeclt : c.codec < h.heap.length := (List.getElem?_eq_some.mp hcodec).1
    have hcount : h.ref_count c.self = och.ref_count := ref_count_eq h _ _ hch
    have key := channel_closed_cb_eq
      (Host.mk
        (heap_add h.heap m ++
          [⟨GType.adhan_prayer_plugin, 1⟩, ⟨GType.fl_standard_method_codec, 2⟩,
           ⟨GType.fl_method_channel, 2⟩])
        (h.channels ++
          [{ self := h.heap.length + 2, messenger := m, channel_closed := false,
             name := "adhan_prayer".toList, codec := h.heap.length + 1,
             method_call_handler := none, method_call_handler_data := 0,
             method_call_handler_destroy_notify := none }])
        (h.handlers_replaced m (h.heap.length + 2)) h.responses)
      e.message_handler_data c och oc ⟨o.type, o.ref_count + 1⟩
      (find_append_left _ _ _ _ hc)
      (by
        show (heap_add h.heap m ++ _)[e.message_handler_data]? = some och
        rw [← hself, List.getElem?_append_left (by rw [hlen]; exact hchlt),
          heap_add_get_ne _ _ _ (fun x => hms x.symm), hch])
      hcht hch0
      (by
        show (heap_add h.heap m ++ _)[c.codec]? = some oc
        rw [List.getElem?_append_left (by rw [hlen]; exact hcodeclt),
          heap_add_get_ne _ _ _ (fun x => hmc x.symm), hcodec])
      hct hc0
      (by
        show (heap_add h.heap m ++ _)[c.messenger]? = some _
        rw [hcm, List.getElem?_append_left (by rw [hlen]; exact hmlt),
          heap_add_get_self _ _ _ hm])
      (by
        show 2 ≤ o.ref_count + 1
        omega)
      (by rw [hcm, ← hself]; exact hms) (by rw [hcm]; exact hmc)
      (by
        intro hnn
        obtain ⟨hid, hmd⟩ := hdat hnn
        obtain ⟨od, hd, hdt, hd0⟩ := is_a_lookup h _ _ hid
        have hdlt : c.method_call_handler_data < h.heap.length :=
          (List.getElem?_eq_some.mp hd).1
        refine ⟨od, ?_, hdt, hd0, by rw [hcm]; exact hmd⟩
        show (heap_add h.heap m ++ _)[c.method_call_handler_data]? = some od
        rw [List.getElem?_append_left (by rw [hlen]; exact hdlt),
          heap_add_get_ne _ _ _ (fun x => hmd x.symm), hd])
    have hps : ∀ p ∈ closed_drops c och.ref_count, p < (heap_add h.heap m).length := by
      intro p hp
      rw [hlen]
      unfold closed_drops at hp
      simp only [List.mem_append, List.mem_singleton] at hp
      rcases hp with (hp | hp) | hp
      · cases hn : c.method_call_handler_destroy_notify with
        | none => rw [hn] at hp; cases hp
        | some f =>
          rw [hn] at hp
          simp only [List.mem_singleton] at hp
          obtain ⟨hid, _⟩ := hdat (by rw [hn]; exact Option.some_ne_none f)
          obtain ⟨od, hd, _, _⟩ := is_a_lookup h _ _ hid
          rw [hp]
          exact (List.getElem?_eq_some.mp hd).1
      · by_cases hk : och.ref_count = 1
        · rw [if_pos hk] at hp
          simp only [List.mem_cons, List.mem_singleton, List.not_mem_nil, or_false] at hp
          rcases hp with hp | hp
          · rw [hp, hcm]; exact hmlt
          · rw [hp]; exact hcodeclt
        · rw [if_neg hk] at hp
          cases hp
      · rw [hp]; exact hchlt
    simp only [Option.some_bind]
    have hkey' : channel_closed_cb e.message_handler_data
        { heap := heap_add h.heap m ++
            [⟨GType.adhan_prayer_plugin, 1⟩, ⟨GType.fl_standard_method_codec, 2⟩,
             ⟨GType.fl_method_channel, 2⟩],
          channels := h.channels ++
            [{ self := h.heap.length + 2, messenger := m, channel_closed := false,
               name := "adhan_prayer".toList, codec := h.heap.length + 1,
               method_call_handler := none, method_call_handler_data := 0,
               method_call_handler_destroy_notify := none }],
          handlers := List.filter
            (fun e => !(e.messenger == m && e.channel == "adhan_prayer".toList)) h.handlers ++
            [{ messenger := m, channel := "adhan_prayer".toList,
               message_handler_data := h.heap.length + 2 }],
          responses := h.responses } = _ := key
    rw [hkey']
    have hne : ¬ h.heap.length + 2 = e.message_handler_data := by
      rw [← hself]
      exact fun x => absurd hchlt (by rw [← x]; exact Nat.not_lt.mpr (Nat.le_add_right _ _))
    have hcount' : h.ref_count e.message_handler_data = och.ref_count := hself ▸ hcount
    simp only [Option.some_bind, Host.released, Host.channels_closed, hrp, hcount, hcount',
      drops_append _ _ _ hps, List.map_append, List.map_cons, List.map_nil, hself,
      Host.handlers_replaced, beq_iff_eq, hne, if_false]

theorem channels_closed_lt (h : Host) (m : gpointer)
    (hw : ∀ c ∈ h.channels, c.self < h.heap.length) :
    ∀ c ∈ h.channels_closed m, c.self < h.heap.length := by
  unfold Host.channels_closed
  cases h.replaced m with
  | none => exact hw
  | some c0 =>
    intro c hc
    simp only [List.mem_map] at hc
    obtain ⟨d, hd, hdc⟩ := hc
    by_cases hs : (d.self == c0.self) = true
    · rw [if_pos hs] at hdc
      rw [← hdc]
      exact hw d hd
    · rw [if_neg hs] at hdc
      rw [← hdc]
      exact hw d hd

theorem released_length (h : Host) (m : gpointer) :
    ((h.released m).foldl heap_drop (heap_add h.heap m)).length = h.heap.length := by
  rw [drops_length, heap_add_length]

/-- The state that registration produces, in full. -/
theorem register_eq (registrar : FlPluginRegistrar) (h : Host)
    (hr : h.ready registrar.messenger) :
    adhan_prayer_plugin_register_with_registrar registrar h = some
      { heap := (h.released registrar.messenger).foldl heap_drop
            (heap_add h.heap registrar.messenger) ++
          [⟨GType.adhan_prayer_plugin, 1⟩, ⟨GType.fl_standard_method_codec, 1⟩,
           ⟨GType.fl_method_channel, 1⟩],
        channels := h.channels_closed registrar.messenger ++
          [{ self := h.heap.length + 2, messenger := registrar.messenger,
             channel_closed := false,
             name := "adhan_prayer".toList, codec := h.heap.length + 1,
             method_call_handler := some FlMethodChannelMethodCallHandler.method_call_cb,
             method_call_handler_data := h.heap.length,
             method_call_handler_destroy_notify := some GDestroyNotify.g_object_unref }],
        handlers := h.handlers_replaced registrar.messenger (h.heap.length + 2),
        responses := h.responses } := by
  have hlen := released_length h registrar.messenger
  have hcs := channels_closed_lt h registrar.messenger hr.1
  have t0 := fun T chs hs rs => g_object_ref_tail _ T chs hs rs _ 0 hlen
  have u0 := fun chs hs rs => g_object_unref_tail _
    [⟨GType.adhan_prayer_plugin, 2⟩, ⟨GType.fl_standard_method_codec, 2⟩,
     ⟨GType.fl_method_channel, 2⟩] chs hs rs _ 0 hlen ⟨GType.adhan_prayer_plugin, 2⟩ rfl
    (by decide)
  have u2 := fun chs hs rs => g_object_unref_tail _
    [⟨GType.adhan_prayer_plugin, 1⟩, ⟨GType.fl_standard_method_codec, 2⟩,
     ⟨GType.fl_method_channel, 2⟩] chs hs rs _ 2 hlen ⟨GType.fl_method_channel, 2⟩ rfl
    (by decide)
  have u1 := fun chs hs rs => g_object_unref_tail _
    [⟨GType.adhan_prayer_plugin, 1⟩, ⟨GType.fl_standard_method_codec, 2⟩,
     ⟨GType.fl_method_channel, 1⟩] chs hs rs _ 1 hlen ⟨GType.fl_standard_method_codec, 2⟩ rfl
    (by decide)
  simp only [Nat.add_zero, List.set_cons_zero, List.set_cons_succ, Nat.add_sub_cancel,
    Nat.reduceSub] at t0 u0 u1 u2
  have hs := fun H => set_handler_fresh H (h.channels_closed registrar.messenger)
    (h.handlers_replaced registrar.messenger (h.heap.length + 2)) h.responses
    { self := h.heap.length + 2, messenger := registrar.messenger, channel_closed := false,
      name := "adhan_prayer".toList, codec := h.heap.length + 1,
      method_call_handler := none, method_call_handler_data := 0,
      method_call_handler_destroy_notify := none } h.heap.length hcs (Nat.le_add_right _ _)
    rfl rfl
  simp only [] at hs
  simp only [adhan_prayer_plugin_register_with_registrar, g_object_new, ADHAN_PRAYER_PLUGIN,
    fl_standard_method_codec_new, fl_plugin_registrar_get_messenger, FL_METHOD_CODEC,
    List.append_assoc, List.cons_append, List.nil_append, List.length_append,
    List.length_cons, List.length_nil, Nat.zero_add, Nat.add_assoc, Nat.reduceAdd,
    Option.bind_eq_bind, Option.pure_def, fl_method_channel_new_eq h _ hr, Option.some_bind,
    t0, hs, u0, u1, u2,
    List.getElem?_cons_zero, List.getElem?_cons_succ, List.set_cons_zero, List.set_cons_succ,
    if_false, if_true, Nat.succ_ne_zero, OfNat.ofNat_ne_zero, one_ne_zero, ne_eq,
    not_false_eq_true, true_and, and_true, true_or, or_true, Nat.add_sub_cancel,
    Nat.reduceSub, Nat.reduceEqDiff, not_true_eq_false, false_or, reduceCtorEq]

theorem register_eq_registered (registrar : FlPluginRegistrar) (h : Host)
    (hr : h.ready registrar.messenger) :
    adhan_prayer_plugin_register_with_registrar registrar h =
      some (h.registered registrar.messenger) :=
  register_eq registrar h hr

/-! ## Facts about the state after registration -/

theorem is_a_ne (h : Host) (p q : gpointer) (t t' : GType) (hp : h.is_a p t = true)
    (hq : h.is_a q t' = true) (ht : t ≠ t') : p ≠ q := by
  intro e
  obtain ⟨o, ho, hot, _⟩ := is_a_lookup h p t hp
  obtain ⟨o', ho', hot', _⟩ := is_a_lookup h q t' hq
  rw [e, ho'] at ho
  have := Option.some.inj ho
  rw [this, hot] at hot'
  exact ht hot'

theorem handler_mem (h : Host) (m : gpointer) (name : List Char) (e : PlatformMessageHandler)
    (he : h.handler m name = some e) : e ∈ h.handlers ∧ e.messenger = m ∧ e.channel = name := by
  unfold Host.handler at he
  have h1 := List.mem_of_find?_eq_some he
  have h2 := List.find?_some he
  simp only [Bool.and_eq_true, beq_iff_eq] at h2
  exact ⟨h1, h2.1, h2.2⟩

/-- A well-formed host with a live messenger is ready for registration. -/
theorem ready_of_wf (h : Host) (m : gpointer) (hwf : h.wf) (hl : h.live m) : h.ready m := by
  refine ⟨hwf.1, hl, ?_⟩
  intro e he
  obtain ⟨hmem, hem, _⟩ := handler_mem h m _ e he
  have hok := hwf.2 e hmem
  unfold Host.entry_ok at hok
  cases hc : h.channel e.message_handler_data with
  | none => rw [hc] at hok; exact Bool.noConfusion hok
  | some c =>
    rw [hc] at hok
    simp only [Bool.and_eq_true, beq_iff_eq, Bool.not_eq_true'] at hok
    obtain ⟨⟨⟨⟨⟨⟨h1, _⟩, _⟩, h4⟩, h5⟩, h6⟩, h7⟩ := hok
    have hcm : c.messenger = m := h1.trans hem
    rw [hcm] at h5
    refine ⟨c, rfl, hcm, h4, h6, ?_, ?_, ?_⟩
    · exact is_a_ne h _ _ _ _ h5 h4 (by decide)
    · exact is_a_ne h _ _ _ _ h5 h6 (by decide)
    · intro hn
      cases hd : c.method_call_handler_destroy_notify with
      | none => exact absurd hd hn
      | some f =>
        rw [hd] at h7
        exact ⟨h7, is_a_ne h _ _ _ _ h5 h7 (by decide)⟩

theorem registered_length (h : Host) (m : gpointer) :
    (h.registered m).heap.length = h.heap.length + 3 := by
  simp only [Host.registered, List.length_append, released_length, List.length_cons,
    List.length_nil]

theorem registered_plugin (h : Host) (m : gpointer) :
    (h.registered m).heap[h.heap.length]? = some ⟨GType.adhan_prayer_plugin, 1⟩ := by
  have := getElem?_tail _
    [⟨GType.adhan_prayer_plugin, 1⟩, ⟨GType.fl_standard_method_codec, 1⟩,
     ⟨GType.fl_method_channel, 1⟩] _ 0 (released_length h m)
  exact this

theorem registered_codec (h : Host) (m : gpointer) :
    (h.registered m).heap[h.heap.length + 1]? = some ⟨GType.fl_standard_method_codec, 1⟩ := by
  have := getElem?_tail _
    [⟨GType.adhan_prayer_plugin, 1⟩, ⟨GType.fl_standard_method_codec, 1⟩,
     ⟨GType.fl_method_channel, 1⟩] _ 1 (released_length h m)
  exact this

theorem registered_channel_object (h : Host) (m : gpointer) :
    (h.registered m).heap[h.heap.length + 2]? = some ⟨GType.fl_method_channel, 1⟩ := by
  have := getElem?_tail _
    [⟨GType.adhan_prayer_plugin, 1⟩, ⟨GType.fl_standard_method_codec, 1⟩,
     ⟨GType.fl_method_channel, 1⟩] _ 2 (released_length h m)
  exact this

theorem registered_channel_new (h : Host) (m : gpointer)
    (hw : ∀ c ∈ h.channels, c.self < h.heap.length) :
    (h.registered m).channel (h.heap.length + 2) = some (registered_channel m h.heap.length) :=
  find_fresh _ h.heap.length (registered_channel m h.heap.length)
    (channels_closed_lt h m hw) (Nat.le_add_right _ _)

theorem find_append_none (cs : List FlMethodChannel) (d : FlMethodChannel) (p : gpointer)
    (hd : d.self ≠ p) :
    (cs ++ [d]).find? (fun x => x.self == p) = cs.find? (fun x => x.self == p) := by
  rw [List.find?_append]
  have : ([d].find? (fun x => x.self == p)) = none := by
    simp [List.find?_cons, hd]
  rw [this]
  cases cs.find? (fun x => x.self == p) <;> rfl

theorem replaced_self (h : Host) (m : gpointer) (c : FlMethodChannel)
    (hrp : h.replaced m = some c) : h.channel c.self = some c := by
  unfold Host.replaced at hrp
  cases he : h.handler m "adhan_prayer".toList with
  | none => rw [he] at hrp; cases hrp
  | some e =>
    rw [he] at hrp
    simp only [Option.some_bind] at hrp
    have := List.find?_some hrp
    simp only [beq_iff_eq] at this
    rw [this]
    exact hrp

/-- Registration closes the channel that it replaces. -/
theorem registered_channel_replaced (h : Host) (m : gpointer) (c : FlMethodChannel)
    (hw : ∀ c ∈ h.channels, c.self < h.heap.length) (hrp : h.replaced m = some c) :
    (h.registered m).channel c.self = some c.closed := by
  have hc := replaced_self h m c hrp
  have hlt : c.self < h.heap.length := hw c (List.mem_of_find?_eq_some hc)
  show (h.channels_closed m ++ [registered_channel m h.heap.length]).find? _ = _
  rw [find_append_none _ _ _ (fun e => absurd hlt (by
    rw [← e]; exact Nat.not_lt.mpr (Nat.le_add_right _ _)))]
  unfold Host.channels_closed
  rw [hrp]
  have := channel_update_self h c.self FlMethodChannel.closed (fun d => rfl)
  rw [hc] at this
  exact this

theorem registered_get (h : Host) (m p : gpointer) (hp : p < h.heap.length) :
    (h.registered m).heap[p]? = ((heap_add h.heap m)[p]?).map
      (fun o => { o with ref_count := o.ref_count - (h.released m).count p }) := by
  show (_ ++ _)[p]? = _
  rw [List.getElem?_append_left (by rw [released_length]; exact hp), drops_get]

/-- The replaced channel releases the messenger at most once. -/
theorem released_count_messenger (h : Host) (m : gpointer) (hr : h.ready m) :
    (h.released m).count m ≤ 1 := by
  unfold Host.released
  cases hrp : h.replaced m with
  | none => exact Nat.zero_le _
  | some c =>
    have hrp' := hrp
    unfold Host.replaced at hrp'
    cases he : h.handler m "adhan_prayer".toList with
    | none => rw [he] at hrp'; cases hrp'
    | some e =>
      rw [he] at hrp'
      simp only [Option.some_bind] at hrp'
      obtain ⟨c', hc', hcm, _, _, hms, hmc, hdat⟩ := hr.2.2 e he
      rw [hrp'] at hc'
      have hcc : c = c' := Option.some.inj hc'
      subst hcc
      simp only [closed_drops]
      have h3 : [c.self].count m = 0 :=
        List.count_eq_zero_of_not_mem (by simp only [List.mem_singleton]; exact hms)
      have h1 : (match c.method_call_handler_destroy_notify with
          | some _ => [c.method_call_handler_data]
          | none => []).count m = 0 := by
        cases hn : c.method_call_handler_destroy_notify with
        | none => rfl
        | some f =>
          exact List.count_eq_zero_of_not_mem (by
            simp only [List.mem_singleton]
            exact (hdat (by rw [hn]; exact Option.some_ne_none f)).2)
      have h2 : (if h.ref_count c.self = 1 then [c.messenger, c.codec] else []).count m ≤ 1 := by
        by_cases hk : h.ref_count c.self = 1
        · rw [if_pos hk, hcm, List.count_cons_self,
            List.count_eq_zero_of_not_mem (by simp only [List.mem_singleton]; exact hmc)]
        · rw [if_neg hk]; exact Nat.zero_le _
      rw [List.count_append, List.count_append, h1, h3]
      simpa using h2

/-- After registration the messenger is still live. -/
theorem registered_live (h : Host) (m : gpointer) (hr : h.ready m) :
    (h.registered m).live m := by
  obtain ⟨o, hm, ho⟩ := live_lookup h m hr.2.1
  have hlt : m < h.heap.length := (List.getElem?_eq_some.mp hm).1
  have hc := released_count_messenger h m hr
  unfold Host.live
  rw [ref_count_eq _ _ _ (by rw [registered_get h m m hlt, heap_add_get_self _ _ _ hm]; rfl)]
  show 0 < o.ref_count + 1 - _
  omega

theorem find_filter_append (hs : List PlatformMessageHandler)
    (q : PlatformMessageHandler → Bool) (x : PlatformMessageHandler) (hx : q x = true) :
    (hs.filter (fun e => !q e) ++ [x]).find? q = some x := by
  induction hs with
  | nil => simp [List.find?_cons, hx]
  | cons d ds ih =>
    by_cases hd : q d = true
    · simp only [List.filter_cons, hd, Bool.not_true, Bool.false_eq_true, if_false]
      exact ih
    · have hd' : q d = false := by simpa using hd
      simp only [List.filter_cons, hd', Bool.not_false, if_true, List.cons_append,
        List.find?_cons]
      exact ih

/-- After registration the new channel is the one that listens under the name
`adhan_prayer` on the messenger. -/
theorem registered_handler (h : Host) (m : gpointer) :
    (h.registered m).handler m "adhan_prayer".toList =
      some ⟨m, "adhan_prayer".toList, h.heap.length + 2⟩ := by
  show (h.handlers_replaced m (h.heap.length + 2)).find? _ = _
  unfold Host.handlers_replaced
  exact find_filter_append h.handlers
    (fun e => e.messenger == m && e.channel == "adhan_prayer".toList) _ (by simp)

theorem registered_replaced (h : Host) (m : gpointer)
    (hw : ∀ c ∈ h.channels, c.self < h.heap.length) :
    (h.registered m).replaced m = some (registered_channel m h.heap.length) := by
  unfold Host.replaced
  rw [registered_handler]
  exact registered_channel_new h m hw

theorem is_a_of_lookup (h : Host) (p : gpointer) (t : GType) (k : Nat)
    (hp : h.heap[p]? = some ⟨t, k + 1⟩) : h.is_a p t = true := by
  unfold Host.is_a
  rw [hp]
  simp

/-- Registration leaves the host ready for another registration on the same
messenger. -/
theorem registered_ready (h : Host) (m : gpointer) (hr : h.ready m) :
    (h.registered m).ready m := by
  obtain ⟨o, hm, ho⟩ := live_lookup h m hr.2.1
  have hlt : m < h.heap.length := (List.getElem?_eq_some.mp hm).1
  refine ⟨?_, registered_live h m hr, ?_⟩
  · intro c hc
    rw [registered_length]
    have hc' : c ∈ h.channels_closed m ++ [registered_channel m h.heap.length] := hc
    rcases List.mem_append.mp hc' with hc | hc
    · exact Nat.lt_of_lt_of_le (channels_closed_lt h m hr.1 c hc) (Nat.le_add_right _ _)
    · rw [List.mem_singleton.mp hc]
      exact Nat.lt_succ_self _
  · intro e he
    rw [registered_handler] at he
    have hee := Option.some.inj he
    subst hee
    refine ⟨registered_channel m h.heap.length, registered_channel_new h m hr.1, rfl,
      is_a_of_lookup _ _ _ 0 (registered_channel_object h m),
      is_a_of_lookup _ _ _ 0 (registered_codec h m), ?_, ?_, ?_⟩
    · exact fun e => absurd hlt (by rw [e]; exact Nat.not_lt.mpr (Nat.le_add_right _ _))
    · exact fun e => absurd hlt (by rw [e]; exact Nat.not_lt.mpr (Nat.le_add_right _ _))
    · intro _
      exact ⟨is_a_of_lookup _ _ _ 0 (registered_plugin h m),
        fun e => absurd hlt (by rw [e]; exact Nat.lt_irrefl _)⟩

/-- A call delivered on the new channel goes to the handler of the plugin, in
any state with the channel entries that registration leaves. -/
theorem registered_deliver (h : Host) (m : gpointer)
    (hw : ∀ c ∈ h.channels, c.self < h.heap.length) (os : Kernel)
    (method_call : FlMethodCall) (g : Host) (hg : g.channels = (h.registered m).channels) :
    fl_method_channel_deliver os (h.heap.length + 2) method_call g =
      adhan_prayer_plugin_handle_method_call os h.heap.length method_call g := by
  have hc : g.channel (h.heap.length + 2) = some (registered_channel m h.heap.length) := by
    unfold Host.channel
    rw [hg]
    exact registered_channel_new h m hw
  unfold fl_method_channel_deliver
  rw [hc]
  rfl

/-- Removing the handler of the new channel releases the plugin, which is
finalised. -/
theorem registered_remove_handler (h : Host) (m : gpointer)
    (hw : ∀ c ∈ h.channels, c.self < h.heap.length) :
    fl_method_channel_set_method_call_handler (h.heap.length + 2) none 0 none
        (h.registered m) = some
      { heap := (h.released m).foldl heap_drop (heap_add h.heap m) ++
          [⟨GType.adhan_prayer_plugin, 0⟩, ⟨GType.fl_standard_method_codec, 1⟩,
           ⟨GType.fl_method_channel, 1⟩],
        channels := h.channels_closed m ++
          [{ self := h.heap.length + 2, messenger := m, channel_closed := false,
             name := "adhan_prayer".toList, codec := h.heap.length + 1,
             method_call_handler := none, method_call_handler_data := 0,
             method_call_handler_destroy_notify := none }],
        handlers := h.handlers_replaced m (h.heap.length + 2),
        responses := h.responses } := by
  have hc := registered_channel_new h m hw
  have hu := g_object_unref_tail ((h.released m).foldl heap_drop (heap_add h.heap m))
    [⟨GType.adhan_prayer_plugin, 1⟩, ⟨GType.fl_standard_method_codec, 1⟩,
     ⟨GType.fl_method_channel, 1⟩]
    (h.channels_closed m ++ [registered_channel m h.heap.length])
    (h.handlers_replaced m (h.heap.length + 2)) h.responses _ 0 (released_length h m)
    ⟨GType.adhan_prayer_plugin, 1⟩ rfl (by decide)
  have hmap := map_fresh (h.channels_closed m) h.heap.length
    (registered_channel m h.heap.length)
    (fun d => { d with method_call_handler := none, method_call_handler_data := 0,
                       method_call_handler_destroy_notify := none })
    (channels_closed_lt h m hw) (Nat.le_add_right _ _)
  simp only [Nat.add_zero, List.set_cons_zero, Nat.sub_self] at hu
  unfold fl_method_channel_set_method_call_handler
  rw [hc]
  simp only [registered_channel, Bool.false_eq_true, if_false, GDestroyNotify.call,
    Option.bind_eq_bind, Option.pure_def]
  have hu' : g_object_unref h.heap.length (h.registered m) = _ := hu
  rw [hu']
  simp only [Option.some_bind, Host.update_channel]
  have hmap' : List.map
      (fun d : FlMethodChannel =>
        if (d.self == h.heap.length + 2) = true then
          { d with method_call_handler := none, method_call_handler_data := 0,
                   method_call_handler_destroy_notify := none }
        else d)
      (h.channels_closed m ++ [registered_channel m h.heap.length]) =
      h.channels_closed m ++
        [{ self := h.heap.length + 2, messenger := m, channel_closed := false,
           name := "adhan_prayer".toList, codec := h.heap.length + 1,
           method_call_handler := none, method_call_handler_data := 0,
           method_call_handler_destroy_notify := none }] := hmap
  rw [hmap']

/-- A second registration on the same messenger closes the channel of the
first. -/
theorem registered_twice_channel (h : Host) (m : gpointer) (hr : h.ready m) :
    ((h.registered m).registered m).channel (h.heap.length + 2) =
      some (registered_channel m h.heap.length).closed :=
  registered_channel_replaced (h.registered m) m (registered_channel m h.heap.length)
    (registered_ready h m hr).1 (registered_replaced h m hr.1)

/-- A second registration on the same messenger releases the plugin of the
first, which is finalised. -/
theorem registered_twice_plugin (h : Host) (m : gpointer) (hr : h.ready m) :
    ((h.registered m).registered m).heap[h.heap.length]? =
      some ⟨GType.adhan_prayer_plugin, 0⟩ := by
  obtain ⟨o, hm, ho⟩ := live_lookup h m hr.2.1
  have hlt : m < h.heap.length := (List.getElem?_eq_some.mp hm).1
  have hne : h.heap.length ≠ m := fun e => absurd hlt (by rw [e]; exact Nat.lt_irrefl _)
  have hrel : (h.registered m).released m =
      closed_drops (registered_channel m h.heap.length)
        ((h.registered m).ref_count (registered_channel m h.heap.length).self) := by
    unfold Host.released
    rw [registered_replaced h m hr.1]
  have hcount : 1 ≤ ((h.registered m).released m).count h.heap.length := by
    rw [hrel]
    simp only [closed_drops, registered_channel, List.count_append, List.count_cons_self,
      List.count_nil]
    omega
  rw [registered_get (h.registered m) m h.heap.length
      (by rw [registered_length]; exact Nat.lt_add_of_pos_right (by decide)),
    heap_add_get_ne _ _ _ hne, registered_plugin]
  simp only [Option.map_some', Option.some.injEq, GObject.mk.injEq, true_and]
  omega

/-! ## Delivery of calls -/

theorem deliver_heap (os : Kernel) (channel : gpointer) (method_call : FlMethodCall)
    (h : Host) : (fl_method_channel_deliver os channel method_call h).heap = h.heap := by
  unfold fl_method_channel_deliver
  cases h.channel channel with
  | none => rfl
  | some c =>
    cases hc : c.method_call_handler with
    | none => simp only [hc]
    | some f => cases f; simp only [hc]; rfl

theorem deliver_channels (os : Kernel) (channel : gpointer) (method_call : FlMethodCall)
    (h : Host) : (fl_method_channel_deliver os channel method_call h).channels = h.channels := by
  unfold fl_method_channel_deliver
  cases h.channel channel with
  | none => rfl
  | some c =>
    cases hc : c.method_call_handler with
    | none => simp only [hc]
    | some f => cases f; simp only [hc]; rfl

theorem deliver_all_heap (os : Kernel) (channel : gpointer) (calls : List FlMethodCall)
    (h : Host) : (fl_method_channel_deliver_all os channel calls h).heap = h.heap := by
  induction calls generalizing h with
  | nil => rfl
  | cons c cs ih =>
    simp only [fl_method_channel_deliver_all]
    rw [ih, deliver_heap]

theorem deliver_all_channels (os : Kernel) (channel : gpointer) (calls : List FlMethodCall)
    (h : Host) : (fl_method_channel_deliver_all os channel calls h).channels = h.channels := by
  induction calls generalizing h with
  | nil => rfl
  | cons c cs ih =>
    simp only [fl_method_channel_deliver_all]
    rw [ih, deliver_channels]

theorem ref_count_congr (h h' : Host) (e : h'.heap = h.heap) (p : gpointer) :
    h'.ref_count p = h.ref_count p := by
  unfold Host.ref_count
  rw [e]

/-! ## The handler -/

/-- The handler delivers, for the call it was given, the response that the
specification prescribes, and does nothing else. -/
theorem handle_method_call_eq (os : Kernel) (self : gpointer) (method_call : FlMethodCall)
    (h : Host) :
    adhan_prayer_plugin_handle_method_call os self method_call h =
      fl_method_call_respond method_call (HandleMethodCall_spec os method_call) h := by
  unfold adhan_prayer_plugin_handle_method_call HandleMethodCall_spec fl_method_call_get_name
  by_cases hn : readCStr method_call.name = "getPlatformVersion".toList
  · have hs : strcmp method_call.name "getPlatformVersion".toList = 0 :=
      (strcmp_getPlatformVersion _).mpr hn
    simp only [hs, hn, if_true, get_platform_version_eq]
  · have hs : ¬ strcmp method_call.name "getPlatformVersion".toList = 0 :=
      fun e => hn ((strcmp_getPlatformVersion _).mp e)
    simp only [hs, hn, if_false, FL_METHOD_RESPONSE, fl_method_not_implemented_response_new]

theorem respond_count_respond (method_call : FlMethodCall) (response : FlMethodResponse)
    (h : Host) :
    (fl_method_call_respond method_call response h).respond_count method_call =
      h.respond_count method_call + 1 := by
  simp [Host.respond_count, fl_method_call_respond, List.filter_append]

theorem infix_Linux (v : List Char) : "Linux".toList <:+: "Linux ".toList ++ v :=
  ⟨[], ' ' :: v, rfl⟩

/-! ## Claims about the handler -/

/-- C1: for every method call whose name is exactly `getPlatformVersion`,
whatever its arguments, the handler responds on that call with a Success
response whose payload is a string that is non-empty and contains the token
`Linux`. -/
theorem C1_getPlatformVersion_success (os : Kernel) (self : gpointer)
    (method_call : FlMethodCall) (h : Host)
    (hname : readCStr (fl_method_call_get_name method_call) = "getPlatformVersion".toList) :
    ∃ s : List Char,
      (adhan_prayer_plugin_handle_method_call os self method_call h).responses =
        h.responses ++ [(method_call, FlMethodResponse.success (FlValue.string s))] ∧
      s ≠ [] ∧ "Linux".toList <:+: s := by
  refine ⟨"Linux ".toList ++ readCStr (os utsname.zeroed).2.from_version, ?_, ?_, infix_Linux _⟩
  · rw [handle_method_call_eq]
    unfold fl_method_call_get_name at hname
    simp only [HandleMethodCall_spec, hname, if_true, fl_method_call_respond]
  · intro e
    have := congrArg List.length e
    simp at this

/-- Witness of C1: a call named `getPlatformVersion` carrying an integer
argument, on a kernel that reports the version `#1 SMP`. -/
theorem C1_getPlatformVersion_success_witness :
    readCStr (fl_method_call_get_name ⟨7, "getPlatformVersion".toList, FlValue.int 3⟩) =
        "getPlatformVersion".toList ∧
    ∃ s : List Char,
      (adhan_prayer_plugin_handle_method_call
          (fun b => (0, { b with version := "#1 SMP".toList ++ [Char.ofNat 0] })) 0
          ⟨7, "getPlatformVersion".toList, FlValue.int 3⟩ ⟨[], [], [], []⟩).responses =
        (⟨[], [], [], []⟩ : Host).responses ++
          [(⟨7, "getPlatformVersion".toList, FlValue.int 3⟩,
            FlMethodResponse.success (FlValue.string s))] ∧
      s ≠ [] ∧ "Linux".toList <:+: s :=
  ⟨by decide, C1_getPlatformVersion_success _ 0 _ _ (by decide)⟩

/-- C2: for every method call whose name is any string other than
`getPlatformVersion`, the handler responds on that call with NotImplemented,
and the response it delivers is not a Success response. -/
theorem C2_other_name_not_implemented (os : Kernel) (self : gpointer)
    (method_call : FlMethodCall) (h : Host)
    (hname : readCStr (fl_method_call_get_name method_call) ≠ "getPlatformVersion".toList) :
    (adhan_prayer_plugin_handle_method_call os self method_call h).responses =
        h.responses ++ [(method_call, FlMethodResponse.not_implemented)] ∧
    ∀ v : FlValue,
      (method_call, FlMethodResponse.success v) ∉
        (adhan_prayer_plugin_handle_method_call os self method_call h).responses.drop
          h.responses.length := by
  have e : (adhan_prayer_plugin_handle_method_call os self method_call h).responses =
      h.responses ++ [(method_call, FlMethodResponse.not_implemented)] := by
    rw [handle_method_call_eq]
    unfold fl_method_call_get_name at hname
    simp only [HandleMethodCall_spec, hname, if_false, fl_method_call_respond]
  refine ⟨e, ?_⟩
  intro v hv
  rw [e, List.drop_left] at hv
  simp at hv

/-- Witness of C2: the names `unknownMethod`, the empty name, a name that
differs only in case, and names that extend `getPlatformVersion` on either
side. -/
theorem C2_other_name_not_implemented_witness :
    (adhan_prayer_plugin_handle_method_call (fun b => (0, b)) 0
        ⟨1, "unknownMethod".toList, FlValue.null⟩ ⟨[], [], [], []⟩).responses =
      [(⟨1, "unknownMethod".toList, FlValue.null⟩, FlMethodResponse.not_implemented)] ∧
    (adhan_prayer_plugin_handle_method_call (fun b => (0, b)) 0
        ⟨2, [], FlValue.null⟩ ⟨[], [], [], []⟩).responses =
      [(⟨2, [], FlValue.null⟩, FlMethodResponse.not_implemented)] ∧
    (adhan_prayer_plugin_handle_method_call (fun b => (0, b)) 0
        ⟨3, "GetPlatformVersion".toList, FlValue.null⟩ ⟨[], [], [], []⟩).responses =
      [(⟨3, "GetPlatformVersion".toList, FlValue.null⟩, FlMethodResponse.not_implemented)] ∧
    (adhan_prayer_plugin_handle_method_call (fun b => (0, b)) 0
        ⟨4, "getPlatformVersion2".toList, FlValue.null⟩ ⟨[], [], [], []⟩).responses =
      [(⟨4, "getPlatformVersion2".toList, FlValue.null⟩, FlMethodResponse.not_implemented)] ∧
    (adhan_prayer_plugin_handle_method_call (fun b => (0, b)) 0
        ⟨5, "xgetPlatformVersion".toList, FlValue.null⟩ ⟨[], [], [], []⟩).responses =
      [(⟨5, "xgetPlatformVersion".toList, FlValue.null⟩, FlMethodResponse.not_implemented)] :=
  ⟨(C2_other_name_not_implemented _ 0 ⟨1, "unknownMethod".toList, FlValue.null⟩
      ⟨[], [], [], []⟩ (by decide)).1,
   (C2_other_name_not_implemented _ 0 ⟨2, [], FlValue.null⟩ ⟨[], [], [], []⟩ (by decide)).1,
   (C2_other_name_not_implemented _ 0 ⟨3, "GetPlatformVersion".toList, FlValue.null⟩
      ⟨[], [], [], []⟩ (by decide)).1,
   (C2_other_name_not_implemented _ 0 ⟨4, "getPlatformVersion2".toList, FlValue.null⟩
      ⟨[], [], [], []⟩ (by decide)).1,
   (C2_other_name_not_implemented _ 0 ⟨5, "xgetPlatformVersion".toList, FlValue.null⟩
      ⟨[], [], [], []⟩ (by decide)).1⟩

/-- C3: for every method call delivered to the handler, directly or through
`method_call_cb`, `fl_method_call_respond` is invoked exactly once, on that
call: the record of responses grows by one entry, which is for that call, so
the number of responses on the call grows by exactly one. -/
theorem C3_exactly_one_response (os : Kernel) (channel self : gpointer)
    (method_call : FlMethodCall) (h : Host) :
    ((∃ r : FlMethodResponse,
        (adhan_prayer_plugin_handle_method_call os self method_call h).responses =
          h.responses ++ [(method_call, r)]) ∧
      (adhan_prayer_plugin_handle_method_call os self method_call h).respond_count method_call =
        h.respond_count method_call + 1) ∧
    ((∃ r : FlMethodResponse,
        (method_call_cb os channel method_call self h).responses =
          h.responses ++ [(method_call, r)]) ∧
      (method_call_cb os channel method_call self h).respond_count method_call =
        h.respond_count method_call + 1) := by
  have key : (∃ r : FlMethodResponse,
        (adhan_prayer_plugin_handle_method_call os self method_call h).responses =
          h.responses ++ [(method_call, r)]) ∧
      (adhan_prayer_plugin_handle_method_call os self method_call h).respond_count method_call =
        h.respond_count method_call + 1 := by
    rw [handle_method_call_eq]
    exact ⟨⟨_, rfl⟩, respond_count_respond _ _ _⟩
  exact ⟨key, key⟩

/-- C4: for every version string `v` that `uname` stores (NUL-terminated) in
the version field, `get_platform_version` returns Success whose payload is
exactly the text `Linux ` followed by `v`; the payload therefore starts with
`Linux`, and it is what the handler delivers for `getPlatformVersion`. -/
theorem C4_payload_is_Linux_version (os : Kernel) (v rest : List Char)
    (hv : ∀ c ∈ v, c.toNat ≠ 0)
    (hos : (os utsname.zeroed).2.version = v ++ Char.ofNat 0 :: rest) :
    get_platform_version os =
        FlMethodResponse.success (FlValue.string ("Linux ".toList ++ v)) ∧
    "Linux".toList <+: "Linux ".toList ++ v ∧
    ∀ (self : gpointer) (method_call : FlMethodCall) (h : Host),
      readCStr (fl_method_call_get_name method_call) = "getPlatformVersion".toList →
      (adhan_prayer_plugin_handle_method_call os self method_call h).responses =
        h.responses ++
          [(method_call, FlMethodResponse.success (FlValue.string ("Linux ".toList ++ v)))] := by
  have hr : readCStr (os utsname.zeroed).2.from_version = v := by
    unfold utsname.from_version
    rw [hos, List.append_assoc, List.append_assoc, List.cons_append]
    exact readCStr_append_nul v _ hv
  refine ⟨?_, ⟨' ' :: v, rfl⟩, ?_⟩
  · rw [get_platform_version_eq, hr]
  · intro self method_call h hname
    unfold fl_method_call_get_name at hname
    rw [handle_method_call_eq]
    simp only [HandleMethodCall_spec, hname, if_true, fl_method_call_respond, hr]

/-- Witness of C4: a kernel that stores `#1 SMP`, a NUL and then other bytes
in the version field. -/
theorem C4_payload_is_Linux_version_witness :
    (∀ c ∈ "#1 SMP".toList, c.toNat ≠ 0) ∧
    get_platform_version
        (fun b => (0, { b with version := "#1 SMP".toList ++ Char.ofNat 0 :: ['x', 'y'] })) =
      FlMethodResponse.success (FlValue.string "Linux #1 SMP".toList) :=
  ⟨by decide,
   (C4_payload_is_Linux_version
      (fun b => (0, { b with version := "#1 SMP".toList ++ Char.ofNat 0 :: ['x', 'y'] }))
      "#1 SMP".toList ['x', 'y'] (by decide) rfl).1⟩

/-- C6: the response of the handler depends on the name of the call and on the
version string of `uname` alone.  On kernels whose version field holds a
NUL-terminated string, two calls with the same name get the same response
whenever the version strings agree, whatever their arguments, the plugin
instances and the host states (so, whatever was handled before); and
handling a call reads and writes no object, no channel and no handler table:
only the record of responses grows. -/
theorem C6_response_depends_on_name_and_version (os1 os2 : Kernel) (self1 self2 : gpointer)
    (call1 call2 : FlMethodCall) (h1 h2 : Host)
    (hname : readCStr (fl_method_call_get_name call1) =
      readCStr (fl_method_call_get_name call2))
    (hterm1 : ∃ c ∈ (os1 utsname.zeroed).2.version, c.toNat = 0)
    (hterm2 : ∃ c ∈ (os2 utsname.zeroed).2.version, c.toNat = 0)
    (hver : readCStr (os1 utsname.zeroed).2.version =
      readCStr (os2 utsname.zeroed).2.version) :
    (∃ r : FlMethodResponse,
      (adhan_prayer_plugin_handle_method_call os1 self1 call1 h1).responses =
        h1.responses ++ [(call1, r)] ∧
      (adhan_prayer_plugin_handle_method_call os2 self2 call2 h2).responses =
        h2.responses ++ [(call2, r)]) ∧
    (adhan_prayer_plugin_handle_method_call os1 self1 call1 h1).heap = h1.heap ∧
    (adhan_prayer_plugin_handle_method_call os1 self1 call1 h1).channels = h1.channels ∧
    (adhan_prayer_plugin_handle_method_call os1 self1 call1 h1).handlers = h1.handlers ∧
    (adhan_prayer_plugin_handle_method_call os2 self2 call2 h2).heap = h2.heap ∧
    (adhan_prayer_plugin_handle_method_call os2 self2 call2 h2).channels = h2.channels ∧
    (adhan_prayer_plugin_handle_method_call os2 self2 call2 h2).handlers = h2.handlers := by
  unfold fl_method_call_get_name at hname
  have hspec : HandleMethodCall_spec os1 call1 = HandleMethodCall_spec os2 call2 := by
    simp only [HandleMethodCall_spec, hname, readCStr_from_version _ hterm1,
      readCStr_from_version _ hterm2, hver]
  rw [handle_method_call_eq, handle_method_call_eq, hspec]
  exact ⟨⟨_, rfl, rfl⟩, rfl, rfl, rfl, rfl, rfl, rfl⟩

/-- Witness of C6: two calls named `getPlatformVersion` with different
addresses, name buffers and arguments, on different plugin instances and
host states, on two kernels that report the same version string and differ
in the bytes after its NUL and in the machine field. -/
theorem C6_response_depends_on_name_and_version_witness :
    ∃ r : FlMethodResponse,
      (adhan_prayer_plugin_handle_method_call
          (fun b => (0, { b with version := "#1".toList ++ [Char.ofNat 0],
                                 machine := "x86_64".toList ++ [Char.ofNat 0] })) 0
          ⟨1, "getPlatformVersion".toList, FlValue.null⟩ ⟨[], [], [], []⟩).responses =
        [(⟨1, "getPlatformVersion".toList, FlValue.null⟩, r)] ∧
      (adhan_prayer_plugin_handle_method_call
          (fun b => (0, { b with version := "#1".toList ++ [Char.ofNat 0, 'z'],
                                 machine := "aarch64".toList ++ [Char.ofNat 0] })) 4
          ⟨2, "getPlatformVersion".toList ++ [Char.ofNat 0, 'q'], FlValue.int 9⟩
          ⟨[⟨GType.fl_binary_messenger, 1⟩], [], [],
            [(⟨0, "a".toList, FlValue.null⟩, FlMethodResponse.not_implemented)]⟩).responses =
        [(⟨0, "a".toList, FlValue.null⟩, FlMethodResponse.not_implemented),
         (⟨2, "getPlatformVersion".toList ++ [Char.ofNat 0, 'q'], FlValue.int 9⟩, r)] :=
  (C6_response_depends_on_name_and_version
    (fun b => (0, { b with version := "#1".toList ++ [Char.ofNat 0],
                           machine := "x86_64".toList ++ [Char.ofNat 0] }))
    (fun b => (0, { b with version := "#1".toList ++ [Char.ofNat 0, 'z'],
                           machine := "aarch64".toList ++ [Char.ofNat 0] })) 0 4
    ⟨1, "getPlatformVersion".toList, FlValue.null⟩
    ⟨2, "getPlatformVersion".toList ++ [Char.ofNat 0, 'q'], FlValue.int 9⟩
    ⟨[], [], [], []⟩
    ⟨[⟨GType.fl_binary_messenger, 1⟩], [], [],
      [(⟨0, "a".toList, FlValue.null⟩, FlMethodResponse.not_implemented)]⟩
    (by decide) (by decide) (by decide) (by decide)).1

/-- C8: the `getPlatformVersion` path has no failure path.  Whatever `uname`
returns and stores, the handler responds with Success carrying a string; and
when `uname` fails (returns `-1`, stores nothing) the payload is exactly
`Linux `, the version read from the zero-initialised buffer being empty. -/
theorem C8_uname_failure_still_success (os : Kernel) (self : gpointer)
    (method_call : FlMethodCall) (h : Host)
    (hname : readCStr (fl_method_call_get_name method_call) = "getPlatformVersion".toList) :
    (∃ s : List Char,
      (adhan_prayer_plugin_handle_method_call os self method_call h).responses =
        h.responses ++ [(method_call, FlMethodResponse.success (FlValue.string s))]) ∧
    (uname_failed os utsname.zeroed →
      get_platform_version os = FlMethodResponse.success (FlValue.string "Linux ".toList) ∧
      (adhan_prayer_plugin_handle_method_call os self method_call h).responses =
        h.responses ++
          [(method_call, FlMethodResponse.success (FlValue.string "Linux ".toList))]) := by
  unfold fl_method_call_get_name at hname
  have e : (adhan_prayer_plugin_handle_method_call os self method_call h).responses =
      h.responses ++ [(method_call, FlMethodResponse.success
        (FlValue.string ("Linux ".toList ++ readCStr (os utsname.zeroed).2.from_version)))] := by
    rw [handle_method_call_eq]
    simp only [HandleMethodCall_spec, hname, if_true, fl_method_call_respond]
  refine ⟨⟨_, e⟩, ?_⟩
  intro hf
  have hz : readCStr (os utsname.zeroed).2.from_version = [] := by
    rw [hf.2]
    exact readCStr_zeroed_version
  rw [e, get_platform_version_eq, hz, List.append_nil]
  exact ⟨rfl, rfl⟩

/-- Witness of C8: a `uname` that fails on every buffer. -/
theorem C8_uname_failure_still_success_witness :
    uname_failed (fun b => (-1, b)) utsname.zeroed ∧
    get_platform_version (fun b => (-1, b)) =
      FlMethodResponse.success (FlValue.string "Linux ".toList) ∧
    (adhan_prayer_plugin_handle_method_call (fun b => (-1, b)) 0
        ⟨1, "getPlatformVersion".toList, FlValue.null⟩ ⟨[], [], [], []⟩).responses =
      [(⟨1, "getPlatformVersion".toList, FlValue.null⟩,
        FlMethodResponse.success (FlValue.string "Linux ".toList))] :=
  ⟨⟨rfl, rfl⟩,
   (C8_uname_failure_still_success (fun b => (-1, b)) 0
      ⟨1, "getPlatformVersion".toList, FlValue.null⟩ ⟨[], [], [], []⟩ (by decide)).2 ⟨rfl, rfl⟩⟩

/-! ## Claim about the Windows entry point -/

/-- C9: `AdhanPrayerPluginCApiRegisterWithRegistrar(registrar)` asks the
registrar manager for the wrapper of that same registrar reference and then
calls `AdhanPrayerPlugin::RegisterWithRegistrar` exactly once, on that
wrapper: these are the only two calls it makes, and the runtime state it
leaves is the one that this single registration produces. -/
theorem C9_c_api_registers_once {σ : Type} (rt : WindowsRuntime σ)
    (registrar : FlutterDesktopPluginRegistrarRef) (s : WindowsState σ) :
    (AdhanPrayerPluginCApiRegisterWithRegistrar rt registrar s).calls =
      s.calls ++ [WindowsCall.GetRegistrar registrar,
        WindowsCall.RegisterWithRegistrar (rt.GetRegistrar registrar s.runtime).1] ∧
    (AdhanPrayerPluginCApiRegisterWithRegistrar rt registrar s).runtime =
      rt.RegisterWithRegistrar (rt.GetRegistrar registrar s.runtime).1
        (rt.GetRegistrar registrar s.runtime).2 := by
  simp [AdhanPrayerPluginCApiRegisterWithRegistrar, WindowsRuntime.callGetRegistrar,
    WindowsRuntime.callRegisterWithRegistrar]

/-! ## Claims about registration -/

theorem handler_works_of_deliver (h : Host) (channel plugin : gpointer)
    (hd : ∀ (os : Kernel) (method_call : FlMethodCall),
      fl_method_channel_deliver os channel method_call h =
        adhan_prayer_plugin_handle_method_call os plugin method_call h) :
    h.handler_works channel := by
  constructor
  · intro os method_call hname
    unfold fl_method_call_get_name at hname
    refine ⟨"Linux ".toList ++ readCStr (os utsname.zeroed).2.from_version, ?_⟩
    rw [hd, handle_method_call_eq]
    simp only [HandleMethodCall_spec, hname, if_true, fl_method_call_respond]
  · intro os method_call hname
    unfold fl_method_call_get_name at hname
    rw [hd, handle_method_call_eq]
    simp only [HandleMethodCall_spec, hname, if_false, fl_method_call_respond]

/-- C7: registering twice with the same valid registrar does not crash: both
calls return a state.  The two calls construct two plugin objects at distinct
addresses, the first still alive when the second is constructed, and each
call installs a working handler on the channel it creates: one that answers
`getPlatformVersion` with Success and any other name with NotImplemented.
The second call replaces the channel of the first on the messenger: that
channel is closed, and the first plugin is released and finalised. -/
theorem C7_register_twice (registrar : FlPluginRegistrar) (h : Host) (hwf : h.wf)
    (hlive : h.live (fl_plugin_registrar_get_messenger registrar)) :
    ∃ h1 h2 : Host,
      adhan_prayer_plugin_register_with_registrar registrar h = some h1 ∧
      adhan_prayer_plugin_register_with_registrar registrar h1 = some h2 ∧
      h.heap.length ≠ h1.heap.length ∧
      h1.heap[h.heap.length]? = some ⟨GType.adhan_prayer_plugin, 1⟩ ∧
      h2.heap[h1.heap.length]? = some ⟨GType.adhan_prayer_plugin, 1⟩ ∧
      h1.handler_works (h.heap.length + 2) ∧
      h2.handler_works (h1.heap.length + 2) ∧
      h2.heap[h.heap.length]? = some ⟨GType.adhan_prayer_plugin, 0⟩ ∧
      h2.channel (h.heap.length + 2) = some
        { self := h.heap.length + 2,
          messenger := fl_plugin_registrar_get_messenger registrar,
          channel_closed := true,
          name := "adhan_prayer".toList, codec := h.heap.length + 1,
          method_call_handler := none, method_call_handler_data := 0,
          method_call_handler_destroy_notify := none } := by
  have hr := ready_of_wf h registrar.messenger hwf hlive
  have hr1 := registered_ready h registrar.messenger hr
  refine ⟨h.registered registrar.messenger,
    (h.registered registrar.messenger).registered registrar.messenger,
    register_eq_registered registrar h hr, register_eq_registered registrar _ hr1,
    ?_, registered_plugin h _, registered_plugin _ _, ?_, ?_,
    registered_twice_plugin h _ hr, registered_twice_channel h _ hr⟩
  · rw [registered_length]
    exact Nat.ne_of_lt (Nat.lt_add_of_pos_right (by decide))
  · exact handler_works_of_deliver _ _ _
      (fun os mc => registered_deliver h _ hr.1 os mc _ rfl)
  · exact handler_works_of_deliver _ _ _
      (fun os mc => registered_deliver _ _ hr1.1 os mc _ rfl)

/-- Witness of C7: two registrations on a host whose only object is the
messenger; the state after both is computed in full. -/
theorem C7_register_twice_witness :
    (⟨[⟨GType.fl_binary_messenger, 1⟩], [], [], []⟩ : Host).wf ∧
    (⟨[⟨GType.fl_binary_messenger, 1⟩], [], [], []⟩ : Host).live 0 ∧
    (adhan_prayer_plugin_register_with_registrar ⟨0⟩
        ⟨[⟨GType.fl_binary_messenger, 1⟩], [], [], []⟩).bind
      (adhan_prayer_plugin_register_with_registrar ⟨0⟩) =
      some ⟨[⟨GType.fl_binary_messenger, 2⟩, ⟨GType.adhan_prayer_plugin, 0⟩,
             ⟨GType.fl_standard_method_codec, 0⟩, ⟨GType.fl_method_channel, 0⟩,
             ⟨GType.adhan_prayer_plugin, 1⟩, ⟨GType.fl_standard_method_codec, 1⟩,
             ⟨GType.fl_method_channel, 1⟩],
            [⟨3, 0, true, "adhan_prayer".toList, 2, none, 0, none⟩,
             ⟨6, 0, false, "adhan_prayer".toList, 5,
              some FlMethodChannelMethodCallHandler.method_call_cb, 4,
              some GDestroyNotify.g_object_unref⟩],
            [⟨0, "adhan_prayer".toList, 6⟩], []⟩ ∧
    ∃ h1 h2 : Host,
      adhan_prayer_plugin_register_with_registrar ⟨0⟩
        ⟨[⟨GType.fl_binary_messenger, 1⟩], [], [], []⟩ = some h1 ∧
      adhan_prayer_plugin_register_with_registrar ⟨0⟩ h1 = some h2 ∧
      h1.handler_works 3 ∧ h2.handler_works (h1.heap.length + 2) :=
  ⟨by decide, by decide, by decide,
   (C7_register_twice ⟨0⟩ ⟨[⟨GType.fl_binary_messenger, 1⟩], [], [], []⟩
      (by decide) (by decide)).imp
    (fun _ hx => hx.imp (fun _ hy => ⟨hy.1, hy.2.1, hy.2.2.2.2.2.1, hy.2.2.2.2.2.2.1⟩))⟩

/-- C10: reference counting in registration is balanced.  On a well-formed
host with a live messenger, when registration returns the plugin object has
reference count exactly 1; the channel holds it as the user data of its
handler, with `g_object_unref` as destroy-notify; delivering any sequence of
calls leaves the count at 1; and removing the handler runs the destroy-notify,
which brings the count to 0 and leaves the channel without a handler. -/
theorem C10_refcount_balanced (registrar : FlPluginRegistrar) (h : Host) (hwf : h.wf)
    (hlive : h.live (fl_plugin_registrar_get_messenger registrar)) :
    ∃ h' : Host,
      adhan_prayer_plugin_register_with_registrar registrar h = some h' ∧
      h'.heap[h.heap.length]? = some ⟨GType.adhan_prayer_plugin, 1⟩ ∧
      h'.ref_count h.heap.length = 1 ∧
      (∃ c : FlMethodChannel, h'.channel (h.heap.length + 2) = some c ∧
        c.method_call_handler = some FlMethodChannelMethodCallHandler.method_call_cb ∧
        c.method_call_handler_data = h.heap.length ∧
        c.method_call_handler_destroy_notify = some GDestroyNotify.g_object_unref) ∧
      (∀ (os : Kernel) (calls : List FlMethodCall),
        (fl_method_channel_deliver_all os (h.heap.length + 2) calls h').ref_count
          h.heap.length = 1) ∧
      ∃ h'' : Host,
        fl_method_channel_set_method_call_handler (h.heap.length + 2) none 0 none h' =
          some h'' ∧
        h''.ref_count h.heap.length = 0 ∧
        ∃ c : FlMethodChannel, h''.channel (h.heap.length + 2) = some c ∧
          c.method_call_handler = none := by
  have hr := ready_of_wf h registrar.messenger hwf hlive
  have hp := registered_plugin h registrar.messenger
  have hrc : (h.registered registrar.messenger).ref_count h.heap.length = 1 :=
    ref_count_eq _ _ _ hp
  refine ⟨h.registered registrar.messenger, register_eq_registered registrar h hr, hp, hrc,
    ⟨_, registered_channel_new h _ hr.1, rfl, rfl, rfl⟩, ?_,
    _, registered_remove_handler h _ hr.1, ?_, ?_⟩
  · intro os calls
    rw [ref_count_congr _ _ (deliver_all_heap os _ calls _), hrc]
  · refine ref_count_eq _ _ ⟨GType.adhan_prayer_plugin, 0⟩ ?_
    exact getElem?_tail _
      [⟨GType.adhan_prayer_plugin, 0⟩, ⟨GType.fl_standard_method_codec, 1⟩,
       ⟨GType.fl_method_channel, 1⟩] _ 0 (released_length h registrar.messenger)
  · exact ⟨_, find_fresh _ h.heap.length
      { self := h.heap.length + 2, messenger := registrar.messenger, channel_closed := false,
        name := "adhan_prayer".toList, codec := h.heap.length + 1,
        method_call_handler := none, method_call_handler_data := 0,
        method_call_handler_destroy_notify := none }
      (channels_closed_lt h _ hr.1) (Nat.le_add_right _ _), rfl⟩

/-- Witness of C10: on a host whose only object is the messenger, the plugin
is the object at address 1 and the channel the object at address 3; on the
state that this registration leaves, a second registration replaces that
channel, and its plugin is the object at address 4. -/
theorem C10_refcount_balanced_witness :
    (⟨[⟨GType.fl_binary_messenger, 1⟩], [], [], []⟩ : Host).wf ∧
    (⟨[⟨GType.fl_binary_messenger, 1⟩], [], [], []⟩ : Host).live 0 ∧
    ((adhan_prayer_plugin_register_with_registrar ⟨0⟩
        ⟨[⟨GType.fl_binary_messenger, 1⟩], [], [], []⟩).bind
      (fl_method_channel_set_method_call_handler 3 none 0 none)).map (fun g => g.heap) =
      some [⟨GType.fl_binary_messenger, 2⟩, ⟨GType.adhan_prayer_plugin, 0⟩,
            ⟨GType.fl_standard_method_codec, 1⟩, ⟨GType.fl_method_channel, 1⟩] ∧
    (∃ h' : Host,
      adhan_prayer_plugin_register_with_registrar ⟨0⟩
        ⟨[⟨GType.fl_binary_messenger, 1⟩], [], [], []⟩ = some h' ∧
      h'.ref_count 1 = 1) ∧
    (∃ h' : Host,
      adhan_prayer_plugin_register_with_registrar ⟨0⟩
        ⟨[⟨GType.fl_binary_messenger, 2⟩, ⟨GType.adhan_prayer_plugin, 1⟩,
          ⟨GType.fl_standard_method_codec, 1⟩, ⟨GType.fl_method_channel, 1⟩],
         [⟨3, 0, false, "adhan_prayer".toList, 2,
           some FlMethodChannelMethodCallHandler.method_call_cb, 1,
           some GDestroyNotify.g_object_unref⟩],
         [⟨0, "adhan_prayer".toList, 3⟩], []⟩ = some h' ∧
      h'.ref_count 4 = 1) :=
  ⟨by decide, by decide, by decide,
   (C10_refcount_balanced ⟨0⟩ ⟨[⟨GType.fl_binary_messenger, 1⟩], [], [], []⟩
      (by decide) (by decide)).imp (fun _ hx => ⟨hx.1, hx.2.2.1⟩),
   (C10_refcount_balanced ⟨0⟩
      ⟨[⟨GType.fl_binary_messenger, 2⟩, ⟨GType.adhan_prayer_plugin, 1⟩,
        ⟨GType.fl_standard_method_codec, 1⟩, ⟨GType.fl_method_channel, 1⟩],
       [⟨3, 0, false, "adhan_prayer".toList, 2,
         some FlMethodChannelMethodCallHandler.method_call_cb, 1,
         some GDestroyNotify.g_object_unref⟩],
       [⟨0, "adhan_prayer".toList, 3⟩], []⟩
      (by decide) (by decide)).imp (fun _ hx => ⟨hx.1, hx.2.2.1⟩)⟩

end AdhanPrayer
